import Mathlib

/-!
Verification of the event-ordering and replay-control subsystem of the STS
fault-injection harness.  The Lean definitions below shallowly embed the
Python sources `sts/control_flow.py` and `sts/entities.py`: stateful Python
classes become explicit state-passing functions, Python exceptions become
`Except`, Python floats used as probabilities become rationals, and
`collections.Counter` becomes an association list from keys to integers.
-/

namespace Sts

/-! ## SyncTime and interpolated time (`Replayer`, control_flow.py) -/

/-- `sts.syncproto.base.SyncTime`: a (seconds, microSeconds) pair.
Modelled from the spec: `sts/syncproto/base.py` is not part of the sources;
the spec describes timestamps as logical (seconds, microseconds) values
compared chronologically. Fields are integers, as in Python. -/
structure SyncTime where
  seconds : Int
  microSeconds : Int
deriving DecidableEq, Repr

/-- Chronological (lexicographic) `≤` on `SyncTime`. -/
def timeLe (a b : SyncTime) : Prop :=
  a.seconds < b.seconds ∨ (a.seconds = b.seconds ∧ a.microSeconds ≤ b.microSeconds)

/-- Chronological (lexicographic) `<` on `SyncTime`. -/
def timeLt (a b : SyncTime) : Prop :=
  a.seconds < b.seconds ∨ (a.seconds = b.seconds ∧ a.microSeconds < b.microSeconds)

instance (a b : SyncTime) : Decidable (timeLe a b) := by
  unfold timeLe; infer_instance

instance (a b : SyncTime) : Decidable (timeLt a b) := by
  unfold timeLt; infer_instance

/-- `Replayer.time_epsilon_microseconds = 500`. -/
def time_epsilon_microseconds : Int := 500

/-- `Replayer.compute_interpolated_time`: the interpolated clock value for a
landmark event is the event's time, with the microseconds component moved
back by the epsilon and floored at zero
(`just_before_micro = max(0, next_time.microSeconds - 500)`). -/
def compute_interpolated_time (current_event_time : SyncTime) : SyncTime :=
  { seconds := current_event_time.seconds
    microSeconds := max 0 (current_event_time.microSeconds - time_epsilon_microseconds) }

/-- A recorded event as seen by the `Replayer`: an id and a timestamp. -/
structure REvent where
  eid : Nat
  time : SyncTime
deriving DecidableEq, Repr

/-- Simulation state visible to `Replayer.simulate`: a bootstrap counter and
the list of event ids whose watchers have run. -/
structure ReplaySim where
  boots : Nat
  executed : List Nat
deriving DecidableEq, Repr

/-- `simulation.bootstrap()`: reset the executed-event list. -/
def simBootstrap (s : ReplaySim) : ReplaySim :=
  { boots := s.boots + 1, executed := [] }

/-- `event_watcher.run(simulation)`: perform the event's effect. -/
def runWatcher (s : ReplaySim) (e : Nat) : ReplaySim :=
  { s with executed := s.executed ++ [e] }

/-- `Replayer.simulate` restricted to one event: recompute the interpolated
time from the event's timestamp, then run its watcher.  Returns the updated
simulation and the interpolated-time value in force while this event is the
next landmark. -/
def replayerStep (s : ReplaySim) (ev : REvent) : ReplaySim × SyncTime :=
  (runWatcher s ev.eid, compute_interpolated_time ev.time)

/-- The body of `Replayer.simulate` after `bootstrap`: fold over the DAG's
events in order, collecting the successive values of `interpolated_time`
(one per landmark, computed just before the landmark's watcher runs). -/
def replayerRun : ReplaySim → List REvent → ReplaySim × List SyncTime
  | s, [] => (s, [])
  | s, ev :: rest =>
    let (s1, t) := replayerStep s ev
    let (s2, ts) := replayerRun s1 rest
    (s2, t :: ts)

/-- `Replayer.simulate`: bootstrap, then replay every event in DAG order. -/
def replayerSimulate (dag : List REvent) (s : ReplaySim) : ReplaySim × List SyncTime :=
  replayerRun (simBootstrap s) dag

/-- The successive answers `get_interpolated_time` gives during one replay
pass: the value computed from each landmark's timestamp, in DAG order. -/
def interpValues (dag : List REvent) (s : ReplaySim) : List SyncTime :=
  (replayerSimulate dag s).2

/-- The property claim C3 asserts of a replay pass: the query answers never
decrease, and each answer is strictly below its landmark's timestamp. -/
def interpolationClaim (dag : List REvent) (s : ReplaySim) : Prop :=
  List.Chain' timeLe (interpValues dag s) ∧
    ∀ ev ∈ dag, timeLt (compute_interpolated_time ev.time) ev.time

/-! ## `ReplaySyncCallback` pending state changes (control_flow.py) -/

/-- `sts.event.PendingStateChange`: the key under which a controller's
state-change report is counted.  Modelled from the spec: `sts/event.py` is
not part of the sources; the spec describes the key as (controller identity,
logical time, fingerprint, field name, new value). -/
structure PendingStateChange where
  controller_uuid : Nat
  time : SyncTime
  fingerprint : Nat
  name : String
  value : Nat
deriving DecidableEq, Repr

/-- The state of a Python `collections.Counter` over keys `κ`: an insertion
-ordered association list from keys to integer counts. -/
abbrev CounterState (κ : Type) : Type := List (κ × Int)

/-- `counter[k]`: the stored count, or `0` when the key is absent. -/
def counterGet {κ : Type} [DecidableEq κ] (c : CounterState κ) (k : κ) : Int :=
  match c.find? (fun e => e.1 = k) with
  | some e => e.2
  | none => 0

/-- `counter[k] = v`: replace the count in place, or append a new entry
(Python dicts preserve insertion order). -/
def counterSet {κ : Type} [DecidableEq κ] : CounterState κ → κ → Int → CounterState κ
  | [], k, v => [(k, v)]
  | e :: rest, k, v =>
    if e.1 = k then (k, v) :: rest else e :: counterSet rest k v

/-- `del counter[k]`: remove the entry for `k`. -/
def counterDel {κ : Type} [DecidableEq κ] (c : CounterState κ) (k : κ) : CounterState κ :=
  c.filter (fun e => ¬ e.1 = k)

/-- `ReplaySyncCallback.state_change`: `self.pending_state_changes[key] += 1`. -/
def state_change {κ : Type} [DecidableEq κ] (c : CounterState κ) (k : κ) : CounterState κ :=
  counterSet c k (counterGet c k + 1)

/-- `ReplaySyncCallback.gc_pending_state_change`: decrement the count, then
delete the entry if the count is now `≤ 0`. -/
def gc_pending_state_change {κ : Type} [DecidableEq κ] (c : CounterState κ) (k : κ) :
    CounterState κ :=
  let c1 := counterSet c k (counterGet c k - 1)
  if counterGet c1 k ≤ 0 then counterDel c1 k else c1

/-- `ReplaySyncCallback.state_change_pending`: whether the count is positive. -/
def state_change_pending {κ : Type} [DecidableEq κ] (c : CounterState κ) (k : κ) : Bool :=
  counterGet c k > 0

/-- A fresh `ReplaySyncCallback` has an empty `Counter`. -/
def initialPendingStateChanges (κ : Type) : CounterState κ := []

/-- The two operations a `ReplaySyncCallback` performs on its counter. -/
inductive SyncOp (κ : Type) where
  | stateChange (k : κ)
  | gcPending (k : κ)
deriving DecidableEq

/-- Apply a sequence of `state_change` / `gc_pending_state_change` calls. -/
def applySyncOps {κ : Type} [DecidableEq κ] : CounterState κ → List (SyncOp κ) → CounterState κ
  | c, [] => c
  | c, SyncOp.stateChange k :: rest => applySyncOps (state_change c k) rest
  | c, SyncOp.gcPending k :: rest => applySyncOps (gc_pending_state_change c k) rest

/-! ## `MCSFinder` (control_flow.py) -/

/-- `EventDag.events()` as used by `MCSFinder.simulate`.
Modelled from the spec: `sts/event.py` is not part of the sources; the spec
describes an `EventDag` as an ordered sequence of events supporting a full
ordered view and a pruned view with one event excised. -/
def dagEvents (dag : List Nat) : List Nat := dag

/-- `EventDag.event_watchers(pruned_event)`: the pruned view of the DAG with
one event excised.  Modelled from the spec (see `dagEvents`). -/
def dagPruned (dag : List Nat) (pruned_event : Nat) : List Nat :=
  dag.erase pruned_event

/-- The inner loop of `MCSFinder.simulate` for one pruned event: bootstrap
the simulation, then run every watcher of the pruned view. -/
def mcsPrunedRun (dag : List Nat) (s : ReplaySim) (pruned_event : Nat) : ReplaySim :=
  (dagPruned dag pruned_event).foldl runWatcher (simBootstrap s)

/-- `MCSFinder.simulate`: first a full `Replayer` pass (the control run),
then for each event a pruned replay; returns the accumulated `mcs` list
(which the code initializes to `[]` and never extends) together with the
final simulation state. -/
def mcsfinderSimulate (dag : List REvent) (s : ReplaySim) : List Nat × ReplaySim :=
  let s1 := (replayerSimulate dag s).1
  let mcs : List Nat := []
  let ids := dagEvents (dag.map (fun ev => ev.eid))
  let s2 := ids.foldl (fun acc e => mcsPrunedRun ids acc e) s1
  (mcs, s2)

/-! ## `DeferredOFConnection` (entities.py) -/

/-- State of one `DeferredOFConnection` together with the parts of its
collaborators that messages can reach: the connection's `OpenFlowBuffer`
(whose `insert_pending_receipt` / `insert_pending_send` are modelled from
the spec, `sts/openflow_buffer.py` not being part of the sources: they only
record the message as buffered and never deliver), the switch's true message
handler (its list of received messages, plus whether `set_message_handler`
has bound it yet), and the wire to the controller (`OFConnection.send`). -/
structure OFConn where
  cid : Nat
  dpid : Nat
  /-- `openflow_buffer` entries recorded by `insert_pending_receipt`:
  (dpid, cid, message). -/
  pending_receipts : List (Nat × Nat × Nat)
  /-- `openflow_buffer` entries recorded by `insert_pending_send`. -/
  pending_sends : List (Nat × Nat × Nat)
  /-- `true_on_message_handler`: `none` until `set_message_handler` runs. -/
  true_on_message_handler : Option Unit
  /-- Messages the switch's true message handler has been invoked on. -/
  delivered_to_switch : List Nat
  /-- Messages actually sent to the controller via `OFConnection.send`. -/
  sent_to_controller : List Nat
deriving DecidableEq, Repr

/-- The operations touching a `DeferredOFConnection`.  A message arriving
from the controller fires `on_message_received`, which `__init__` binds to
`insert_pending_receipt`; a switch-side `send` fires `insert_pending_send`;
`allow_message_receipt` / `allow_message_send` are the explicit releases. -/
inductive ConnOp where
  | receiveFromController (msg : Nat)
  | sendFromSwitch (msg : Nat)
  | allowMessageReceipt (msg : Nat)
  | allowMessageSend (msg : Nat)
  | setMessageHandler
deriving DecidableEq, Repr

/-- Calling `true_on_message_handler` when it is still `None` is a Python
`TypeError`. -/
inductive ConnErr where
  | typeError
deriving DecidableEq, Repr

/-- One step of a `DeferredOFConnection`. -/
def connStep (c : OFConn) : ConnOp → Except ConnErr OFConn
  | ConnOp.receiveFromController msg =>
    -- `insert_pending_receipt`: feed into the openflow buffer, not the switch
    Except.ok { c with pending_receipts := c.pending_receipts ++ [(c.dpid, c.cid, msg)] }
  | ConnOp.sendFromSwitch msg =>
    -- `send`: interpose on switch sends as well
    Except.ok { c with pending_sends := c.pending_sends ++ [(c.dpid, c.cid, msg)] }
  | ConnOp.allowMessageReceipt msg =>
    -- `allow_message_receipt`: let the message through to the switch
    match c.true_on_message_handler with
    | none => Except.error ConnErr.typeError
    | some _ => Except.ok { c with delivered_to_switch := c.delivered_to_switch ++ [msg] }
  | ConnOp.allowMessageSend msg =>
    -- `allow_message_send`: actually send to the controller
    Except.ok { c with sent_to_controller := c.sent_to_controller ++ [msg] }
  | ConnOp.setMessageHandler =>
    Except.ok { c with true_on_message_handler := some () }

/-! ## `Fuzzer` (control_flow.py) -/

/-- The probabilities loaded from `config.fuzzer_params`. -/
structure FuzzerParams where
  dataplane_delay_rate : Rat
  dataplane_drop_rate : Rat
  controlplane_block_rate : Rat
  controlplane_unblock_rate : Rat
  ofp_message_receipt_rate : Rat
  switch_failure_rate : Rat
  switch_recovery_rate : Rat
  link_failure_rate : Rat
  link_recovery_rate : Rat
  traffic_generation_rate : Rat
  controller_crash_rate : Rat
  controller_recovery_rate : Rat
deriving DecidableEq, Repr

/-- A queued dataplane event: its fingerprint and whether
`topology.ok_to_send` holds for it (the topology collaborator's verdict). -/
structure DpEvent where
  fingerprint : Nat
  ok_to_send : Bool
deriving DecidableEq, Repr

/-- An entry of `god_scheduler.pending_receives()`. -/
structure Receipt where
  fingerprint : Nat
  dpid : Nat
  controller_id : Nat
deriving DecidableEq, Repr

/-- A network link as read by the fuzzer's logging code. -/
structure NetLink where
  start_dpid : Nat
  start_port_no : Nat
  end_dpid : Nat
  end_port_no : Nat
deriving DecidableEq, Repr

/-- A host: its id and its interface list. -/
structure HostEnt where
  hid : Nat
  interfaces : List Nat
deriving DecidableEq, Repr

/-- The slice of the external `Simulation` a fuzzer round reads and writes:
topology accessors, the buffered patch panel, the god scheduler, and the
controller manager (all external collaborators, §6 of the spec). -/
structure SimState where
  queued_dataplane_events : List DpEvent
  delayed_dp_events : List DpEvent
  dropped_dp_events : List DpEvent
  permitted_dp_events : List DpEvent
  unblocked_controller_connections : List (Nat × Nat)
  blocked_controller_connections : List (Nat × Nat)
  pending_receives : List Receipt
  scheduled_receives : List Receipt
  live_switches : List Nat
  failed_switches : List Nat
  live_links : List NetLink
  cut_links : List NetLink
  hosts : List HostEnt
  live_controllers : List Nat
  down_controllers : List Nat
  dataplane_trace : Option (List Nat)
deriving DecidableEq, Repr

/-- One structured record handed to `log_input_event`, tagged by `klass`. -/
inductive LogRecord where
  | trafficInjection (dp_event : Nat)
  | dataplaneDrop (fingerprint : Nat)
  | dataplanePermit (fingerprint : Nat)
  | controlChannelBlock (dpid : Nat) (controller_uuid : Nat)
  | controlChannelUnBlock (dpid : Nat) (controller_uuid : Nat)
  | controlMessageReceive (fingerprint : Nat) (dpid : Nat) (controller_id : Nat)
  | switchFailure (dpid : Nat)
  | switchRecovery (dpid : Nat)
  | linkFailure (start_dpid start_port_no end_dpid end_port_no : Nat)
  | linkRecovery (start_dpid start_port_no end_dpid end_port_no : Nat)
  | controllerCrash (uuid : Nat)
  | controllerRecovery (uuid : Nat)
deriving DecidableEq, Repr

/-- The configuration of a `Fuzzer` instance.  `random.Random(seed)` is a
deterministic pseudo-random generator, embedded as the stream `rand` of
draws in `[0, 1)`; the generator's mutable position in the stream and the
mutable `logical_time` are threaded through the round functions explicitly.
The `topology` field mirrors the Python attribute `self.topology`, which
`__init__` never assigns: it stays `none`, so reading it raises
`AttributeError`. -/
structure Fuzzer where
  check_interval : Nat
  trace_interval : Nat
  seed : Rat
  rand : Nat → Rat
  delay : Rat
  steps : Option Nat
  params : FuzzerParams
  input_logger : Bool
  topology : Option Unit

/-- `Fuzzer.__init__`: store the intervals and parameters and seed the
random source (`prg` embeds the `random.Random` generator family).  No
attribute named `topology` is ever assigned. -/
def mkFuzzer (prg : Rat → Nat → Rat) (fuzzer_params : FuzzerParams)
    (check_interval trace_interval : Nat) (random_seed : Rat) (delay : Rat)
    (steps : Option Nat) (input_logger : Bool) : Fuzzer :=
  { check_interval := check_interval
    trace_interval := trace_interval
    seed := random_seed
    rand := prg random_seed
    delay := delay
    steps := steps
    params := fuzzer_params
    input_logger := input_logger
    topology := none }

/-- `self.random.random()`: the draw at position `i` of the stream, and the
generator's next position. -/
def nextRand (fz : Fuzzer) (i : Nat) : Rat × Nat :=
  (fz.rand i, i + 1)

/-- Reading the unassigned attribute `self.topology` raises `AttributeError`. -/
inductive FuzzErr where
  | attributeError
deriving DecidableEq, Repr

/-- Iteration of `Fuzzer.check_dataplane` over the queued dataplane events:
for each event decide delay first, then drop, then permit-if-topology
-allows; an event taking none of the branches stays queued. -/
def check_dataplane_go (fz : Fuzzer) : Nat → SimState → List DpEvent →
    Nat × SimState × List LogRecord
  | i, sim, [] => (i, sim, [])
  | i, sim, dp_event :: rest =>
    let (r1, i1) := nextRand fz i
    if r1 < fz.params.dataplane_delay_rate then
      let sim1 := { sim with delayed_dp_events := sim.delayed_dp_events ++ [dp_event] }
      check_dataplane_go fz i1 sim1 rest
    else
      let (r2, i2) := nextRand fz i1
      if r2 < fz.params.dataplane_drop_rate then
        let sim1 := { sim with dropped_dp_events := sim.dropped_dp_events ++ [dp_event] }
        let (i3, sim2, recs) := check_dataplane_go fz i2 sim1 rest
        (i3, sim2, LogRecord.dataplaneDrop dp_event.fingerprint :: recs)
      else if dp_event.ok_to_send then
        let sim1 := { sim with permitted_dp_events := sim.permitted_dp_events ++ [dp_event] }
        let (i3, sim2, recs) := check_dataplane_go fz i2 sim1 rest
        (i3, sim2, LogRecord.dataplanePermit dp_event.fingerprint :: recs)
      else
        let sim1 := { sim with
          queued_dataplane_events := sim.queued_dataplane_events ++ [dp_event] }
        check_dataplane_go fz i2 sim1 rest

/-- `Fuzzer.check_dataplane`. -/
def check_dataplane (fz : Fuzzer) (i : Nat) (sim : SimState) :
    Nat × SimState × List LogRecord :=
  check_dataplane_go fz i { sim with queued_dataplane_events := [] }
    sim.queued_dataplane_events

/-- The block half of `Fuzzer.check_tcp_connections`: for each unblocked
connection, with probability `controlplane_block_rate`, evaluate
`self.topology.block_connection(connection)`.  `self.topology` was never
assigned, so taking the branch raises `AttributeError`. -/
def tcp_block_go (fz : Fuzzer) : Nat → SimState → List (Nat × Nat) →
    Except FuzzErr (Nat × SimState × List LogRecord)
  | i, sim, [] => Except.ok (i, sim, [])
  | i, sim, (dpid, cid) :: rest =>
    let (r, i1) := nextRand fz i
    if r < fz.params.controlplane_block_rate then
      match fz.topology with
      | none => Except.error FuzzErr.attributeError
      | some _ =>
        let sim1 := { sim with
          unblocked_controller_connections :=
            sim.unblocked_controller_connections.erase (dpid, cid)
          blocked_controller_connections :=
            sim.blocked_controller_connections ++ [(dpid, cid)] }
        match tcp_block_go fz i1 sim1 rest with
        | Except.error e => Except.error e
        | Except.ok (i2, sim2, recs) =>
          Except.ok (i2, sim2, LogRecord.controlChannelBlock dpid cid :: recs)
    else tcp_block_go fz i1 sim rest

/-- The unblock half of `Fuzzer.check_tcp_connections`, symmetric to
`tcp_block_go`; it too evaluates the unassigned `self.topology`. -/
def tcp_unblock_go (fz : Fuzzer) : Nat → SimState → List (Nat × Nat) →
    Except FuzzErr (Nat × SimState × List LogRecord)
  | i, sim, [] => Except.ok (i, sim, [])
  | i, sim, (dpid, cid) :: rest =>
    let (r, i1) := nextRand fz i
    if r < fz.params.controlplane_unblock_rate then
      match fz.topology with
      | none => Except.error FuzzErr.attributeError
      | some _ =>
        let sim1 := { sim with
          blocked_controller_connections :=
            sim.blocked_controller_connections.erase (dpid, cid)
          unblocked_controller_connections :=
            sim.unblocked_controller_connections ++ [(dpid, cid)] }
        match tcp_unblock_go fz i1 sim1 rest with
        | Except.error e => Except.error e
        | Except.ok (i2, sim2, recs) =>
          Except.ok (i2, sim2, LogRecord.controlChannelUnBlock dpid cid :: recs)
    else tcp_unblock_go fz i1 sim rest

/-- `Fuzzer.check_tcp_connections`. -/
def check_tcp_connections (fz : Fuzzer) (i : Nat) (sim : SimState) :
    Except FuzzErr (Nat × SimState × List LogRecord) :=
  match tcp_block_go fz i sim sim.unblocked_controller_connections with
  | Except.error e => Except.error e
  | Except.ok (i1, sim1, recs1) =>
    match tcp_unblock_go fz i1 sim1 sim1.blocked_controller_connections with
    | Except.error e => Except.error e
    | Except.ok (i2, sim2, recs2) => Except.ok (i2, sim2, recs1 ++ recs2)

/-- `Fuzzer.check_message_receipts`: probabilistically schedule each pending
controller-to-switch message receipt. -/
def check_message_receipts_go (fz : Fuzzer) : Nat → SimState → List Receipt →
    Nat × SimState × List LogRecord
  | i, sim, [] => (i, sim, [])
  | i, sim, pr :: rest =>
    let (r, i1) := nextRand fz i
    if r < fz.params.ofp_message_receipt_rate then
      let sim1 := { sim with
        pending_receives := sim.pending_receives.filter (fun x => ¬ x = pr)
        scheduled_receives := sim.scheduled_receives ++ [pr] }
      let (i2, sim2, recs) := check_message_receipts_go fz i1 sim1 rest
      (i2, sim2,
        LogRecord.controlMessageReceive pr.fingerprint pr.dpid pr.controller_id :: recs)
    else check_message_receipts_go fz i1 sim rest

/-- `Fuzzer.check_message_receipts`. -/
def check_message_receipts (fz : Fuzzer) (i : Nat) (sim : SimState) :
    Nat × SimState × List LogRecord :=
  check_message_receipts_go fz i sim sim.pending_receives

/-- `crash_switches` inside `Fuzzer.check_switch_crashes`: probabilistically
crash each live switch, remembering the set crashed this round. -/
def crash_switches_go (fz : Fuzzer) : Nat → SimState → List Nat →
    Nat × SimState × List LogRecord × List Nat
  | i, sim, [] => (i, sim, [], [])
  | i, sim, sw :: rest =>
    let (r, i1) := nextRand fz i
    if r < fz.params.switch_failure_rate then
      let sim1 := { sim with
        live_switches := sim.live_switches.erase sw
        failed_switches := sim.failed_switches ++ [sw] }
      let (i2, sim2, recs, crashed) := crash_switches_go fz i1 sim1 rest
      (i2, sim2, LogRecord.switchFailure sw :: recs, sw :: crashed)
    else crash_switches_go fz i1 sim rest

/-- `restart_switches`: probabilistically recover each failed switch that
was not crashed this round (those are skipped before any draw). -/
def restart_switches_go (fz : Fuzzer) : Nat → SimState → List Nat → List Nat →
    Nat × SimState × List LogRecord
  | i, sim, _, [] => (i, sim, [])
  | i, sim, crashed, sw :: rest =>
    if sw ∈ crashed then restart_switches_go fz i sim crashed rest
    else
      let (r, i1) := nextRand fz i
      if r < fz.params.switch_recovery_rate then
        let sim1 := { sim with
          failed_switches := sim.failed_switches.erase sw
          live_switches := sim.live_switches ++ [sw] }
        let (i2, sim2, recs) := restart_switches_go fz i1 sim1 crashed rest
        (i2, sim2, LogRecord.switchRecovery sw :: recs)
      else restart_switches_go fz i1 sim crashed rest

/-- `sever_links`: probabilistically cut each live link. -/
def sever_links_go (fz : Fuzzer) : Nat → SimState → List NetLink →
    Nat × SimState × List LogRecord × List NetLink
  | i, sim, [] => (i, sim, [], [])
  | i, sim, link :: rest =>
    let (r, i1) := nextRand fz i
    if r < fz.params.link_failure_rate then
      let sim1 := { sim with
        live_links := sim.live_links.erase link
        cut_links := sim.cut_links ++ [link] }
      let (i2, sim2, recs, cut) := sever_links_go fz i1 sim1 rest
      (i2, sim2,
        LogRecord.linkFailure link.start_dpid link.start_port_no
          link.end_dpid link.end_port_no :: recs,
        link :: cut)
    else sever_links_go fz i1 sim rest

/-- `repair_links`: probabilistically repair each cut link not cut this
round. -/
def repair_links_go (fz : Fuzzer) : Nat → SimState → List NetLink → List NetLink →
    Nat × SimState × List LogRecord
  | i, sim, _, [] => (i, sim, [])
  | i, sim, cut, link :: rest =>
    if link ∈ cut then repair_links_go fz i sim cut rest
    else
      let (r, i1) := nextRand fz i
      if r < fz.params.link_recovery_rate then
        let sim1 := { sim with
          cut_links := sim.cut_links.erase link
          live_links := sim.live_links ++ [link] }
        let (i2, sim2, recs) := repair_links_go fz i1 sim1 cut rest
        (i2, sim2,
          LogRecord.linkRecovery link.start_dpid link.start_port_no
            link.end_dpid link.end_port_no :: recs)
      else repair_links_go fz i1 sim cut rest

/-- `Fuzzer.check_switch_crashes`: crash switches, restart switches, sever
links, repair links, in that order. -/
def check_switch_crashes (fz : Fuzzer) (i : Nat) (sim : SimState) :
    Nat × SimState × List LogRecord :=
  let (i1, sim1, recs1, crashed) := crash_switches_go fz i sim sim.live_switches
  let (i2, sim2, recs2) := restart_switches_go fz i1 sim1 crashed sim1.failed_switches
  let (i3, sim3, recs3, cut) := sever_links_go fz i2 sim2 sim2.live_links
  let (i4, sim4, recs4) := repair_links_go fz i3 sim3 cut sim3.cut_links
  (i4, sim4, recs1 ++ recs2 ++ recs3 ++ recs4)

/-- `TrafficGenerator.generate("icmp_ping", host)`.  Modelled from the spec:
`sts/traffic_generator.py` is not part of the sources; the spec only says a
synthetic packet (an ICMP ping) is generated from the host and fed to the
switch, so the generated dataplane event is identified by the host. -/
def generate_traffic (host : HostEnt) : Nat := host.hid

/-- `Fuzzer.fuzz_traffic`: only when no dataplane trace is attached, draw
for each host, and inject a random packet when the draw fires and the host
has at least one interface (the draw happens before the interface check). -/
def fuzz_traffic_go (fz : Fuzzer) : Nat → List HostEnt → Nat × List LogRecord
  | i, [] => (i, [])
  | i, host :: rest =>
    let (r, i1) := nextRand fz i
    if r < fz.params.traffic_generation_rate then
      if host.interfaces.length > 0 then
        let dp_event := generate_traffic host
        let (i2, recs) := fuzz_traffic_go fz i1 rest
        (i2, LogRecord.trafficInjection dp_event :: recs)
      else fuzz_traffic_go fz i1 rest
    else fuzz_traffic_go fz i1 rest

/-- `Fuzzer.fuzz_traffic`. -/
def fuzz_traffic (fz : Fuzzer) (i : Nat) (sim : SimState) :
    Nat × SimState × List LogRecord :=
  if sim.dataplane_trace.isSome then (i, sim, [])
  else
    let (i1, recs) := fuzz_traffic_go fz i sim.hosts
    (i1, sim, recs)

/-- `crash_controllers` inside `Fuzzer.check_controllers`. -/
def crash_controllers_go (fz : Fuzzer) : Nat → SimState → List Nat →
    Nat × SimState × List LogRecord × List Nat
  | i, sim, [] => (i, sim, [], [])
  | i, sim, ctrl :: rest =>
    let (r, i1) := nextRand fz i
    if r < fz.params.controller_crash_rate then
      let sim1 := { sim with
        live_controllers := sim.live_controllers.erase ctrl
        down_controllers := sim.down_controllers ++ [ctrl] }
      let (i2, sim2, recs, crashed) := crash_controllers_go fz i1 sim1 rest
      (i2, sim2, LogRecord.controllerCrash ctrl :: recs, ctrl :: crashed)
    else crash_controllers_go fz i1 sim rest

/-- `reboot_controllers`: down controllers not crashed this round are
candidates for recovery (the skip happens before any draw). -/
def reboot_controllers_go (fz : Fuzzer) : Nat → SimState → List Nat → List Nat →
    Nat × SimState × List LogRecord
  | i, sim, _, [] => (i, sim, [])
  | i, sim, crashed, ctrl :: rest =>
    if ctrl ∈ crashed then reboot_controllers_go fz i sim crashed rest
    else
      let (r, i1) := nextRand fz i
      if r < fz.params.controller_recovery_rate then
        let sim1 := { sim with
          down_controllers := sim.down_controllers.erase ctrl
          live_controllers := sim.live_controllers ++ [ctrl] }
        let (i2, sim2, recs) := reboot_controllers_go fz i1 sim1 crashed rest
        (i2, sim2, LogRecord.controllerRecovery ctrl :: recs)
      else reboot_controllers_go fz i1 sim crashed rest

/-- `Fuzzer.check_controllers`. -/
def check_controllers (fz : Fuzzer) (i : Nat) (sim : SimState) :
    Nat × SimState × List LogRecord :=
  let (i1, sim1, recs1, crashed) := crash_controllers_go fz i sim sim.live_controllers
  let (i2, sim2, recs2) := reboot_controllers_go fz i1 sim1 crashed sim1.down_controllers
  (i2, sim2, recs1 ++ recs2)

/-- `Fuzzer.trigger_events`: the six decision checks of one round, in the
source's order. -/
def trigger_events (fz : Fuzzer) (i : Nat) (sim : SimState) :
    Except FuzzErr (Nat × SimState × List LogRecord) :=
  let (i1, sim1, recs1) := check_dataplane fz i sim
  match check_tcp_connections fz i1 sim1 with
  | Except.error e => Except.error e
  | Except.ok (i2, sim2, recs2) =>
    let (i3, sim3, recs3) := check_message_receipts fz i2 sim2
    let (i4, sim4, recs4) := check_switch_crashes fz i3 sim3
    let (i5, sim5, recs5) := fuzz_traffic fz i4 sim4
    let (i6, sim6, recs6) := check_controllers fz i5 sim5
    Except.ok (i6, sim6, recs1 ++ recs2 ++ recs3 ++ recs4 ++ recs5 ++ recs6)

/-- `Fuzzer.maybe_inject_trace_event`: if a dataplane trace is attached and
the round number is a multiple of `trace_interval`, inject the next trace
event and log it. -/
def maybe_inject_trace_event (fz : Fuzzer) (logical_time : Nat) (sim : SimState) :
    SimState × List LogRecord :=
  if sim.dataplane_trace.isSome ∧ logical_time % fz.trace_interval = 0 then
    match sim.dataplane_trace with
    | some (e :: rest) =>
      ({ sim with dataplane_trace := some rest }, [LogRecord.trafficInjection e])
    | _ => (sim, [])
  else (sim, [])

/-! ## The fuzzer round loop and the Input Logger (`Fuzzer.loop`) -/

/-- A call made on the Input Logger collaborator: `log_input_event` or
`close`. -/
inductive LoggerCall where
  | log (record : LogRecord)
  | close
deriving DecidableEq, Repr

/-- Outcome of a loop: the sequence of Input Logger calls, and whether the
loop body terminated via an error. -/
structure LoopResult where
  calls : List LoggerCall
  errored : Bool
deriving DecidableEq, Repr

/-- `_log_input_event`: logs only when an input logger was supplied. -/
def logCalls (logger : Bool) (recs : List LogRecord) : List LoggerCall :=
  if logger then recs.map LoggerCall.log else []

/-- The `finally` clause: `close(simulation)` when a logger was supplied. -/
def closeCalls (logger : Bool) : List LoggerCall :=
  if logger then [LoggerCall.close] else []

/-- `sys.maxint` on a 64-bit build. -/
def sys_maxint : Nat := 2 ^ 63 - 1

/-- The `while self.logical_time < end_time` loop of `Fuzzer.loop`, with the
remaining round budget as fuel.  Each round increments the logical time,
runs `trigger_events` (whose error aborts the loop into the `finally`
clause), skips `maybe_check_correspondence` (it emits no Input Logger calls;
an exception inside its worker thread does not propagate), then runs
`maybe_inject_trace_event`.  The simulation state observed at round `t` is
`sims t`: the external simulation's evolution between rounds. -/
def fuzzer_loop_go (fz : Fuzzer) (sims : Nat → SimState) :
    Nat → Nat → Nat → LoopResult
  | 0, _, _ => { calls := closeCalls fz.input_logger, errored := false }
  | fuel + 1, i, logical_time =>
    let t1 := logical_time + 1
    let sim := sims t1
    match trigger_events fz i sim with
    | Except.error _ => { calls := closeCalls fz.input_logger, errored := true }
    | Except.ok (i2, sim2, recs) =>
      let (_sim3, recs2) := maybe_inject_trace_event fz t1 sim2
      let rest := fuzzer_loop_go fz sims fuel i2 t1
      { calls := logCalls fz.input_logger recs ++ logCalls fz.input_logger recs2
          ++ rest.calls
        errored := rest.errored }

/-- `Fuzzer.loop`, started at random-stream position `i` and logical time
`logical_time` (both `0` after `__init__`): the round budget is `steps`
when that is a non-zero value (`if self.steps:` — `None` and `0` are both
falsy), else `sys.maxint`. -/
def fuzzer_loop (fz : Fuzzer) (i logical_time : Nat) (sims : Nat → SimState) :
    LoopResult :=
  let end_time : Nat :=
    match fz.steps with
    | some s => if s ≠ 0 then logical_time + s else sys_maxint
    | none => sys_maxint
  fuzzer_loop_go fz sims (end_time - logical_time) i logical_time

/-! ## `Interactive` (control_flow.py) -/

/-- Configuration of an `Interactive` session; the mutable `logical_time`
is threaded through the loop explicitly. -/
structure Interactive where
  input_logger : Bool
deriving DecidableEq, Repr

/-- The slice of the simulation `Interactive` touches. -/
structure ISim where
  patch_panel_buffered : Bool
  queued_dataplane_events : List DpEvent
  delayed_dp_events : List DpEvent
  dropped_dp_events : List DpEvent
  permitted_dp_events : List DpEvent
  pending_receives : List Receipt
  scheduled_receives : List Receipt
  dataplane_trace : Option (List Nat)
deriving DecidableEq, Repr

/-- `msg.raw_input` against a finite stream of operator answers; an
exhausted stream is an `EOFError`. -/
inductive IErr where
  | eofError
deriving DecidableEq, Repr

/-- Read one operator answer. -/
def raw_input : List String → Except IErr (String × List String)
  | [] => Except.error IErr.eofError
  | a :: rest => Except.ok (a, rest)

/-- `Interactive.invariant_check_prompt`: one answer decides whether to
check; a yes consumes a second answer naming the invariant and calls the
external invariant checker (which holds no state of ours). -/
def invariant_check_prompt (answers : List String) : Except IErr (List String) :=
  match raw_input answers with
  | Except.error e => Except.error e
  | Except.ok (answer, rest) =>
    if answer ≠ "" ∧ answer.toLower ≠ "n" then
      match raw_input rest with
      | Except.error e => Except.error e
      | Except.ok (_, rest2) => Except.ok rest2
    else Except.ok rest

/-- `dataplane_trace.inject_trace_event()` for the interactive session. -/
def inject_trace_event (sim : ISim) : ISim × List LogRecord :=
  match sim.dataplane_trace with
  | some (e :: rest) =>
    ({ sim with dataplane_trace := some rest }, [LogRecord.trafficInjection e])
  | _ => (sim, [])

/-- The `while True` body of `Interactive.dataplane_trace_prompt`: keep
feeding trace events while the operator answers yes. -/
def dataplane_trace_prompt_go : ISim → List String →
    Except IErr (ISim × List LogRecord × List String)
  | _, [] => Except.error IErr.eofError
  | sim, a :: rest =>
    if a ≠ "" ∧ a.toLower ≠ "n" then
      let (sim1, recs1) := inject_trace_event sim
      match dataplane_trace_prompt_go sim1 rest with
      | Except.error e => Except.error e
      | Except.ok (sim2, recs2, rest2) => Except.ok (sim2, recs1 ++ recs2, rest2)
    else Except.ok (sim, [], rest)

/-- `Interactive.dataplane_trace_prompt`. -/
def dataplane_trace_prompt (sim : ISim) (answers : List String) :
    Except IErr (ISim × List LogRecord × List String) :=
  if sim.dataplane_trace.isSome then dataplane_trace_prompt_go sim answers
  else Except.ok (sim, [], answers)

/-- Per-event loop of `Interactive.check_dataplane`: the operator allows,
drops, or delays each queued dataplane event (an allow on an event the
topology rejects, or an unknown answer, falls through to delay). -/
def interactive_check_dataplane_go : ISim → List DpEvent → List String →
    Except IErr (ISim × List LogRecord × List String)
  | sim, [], answers => Except.ok (sim, [], answers)
  | sim, dp_event :: rest, answers =>
    match raw_input answers with
    | Except.error e => Except.error e
    | Except.ok (answer, rest_ans) =>
      if (answer = "" ∨ answer.toLower = "a") ∧ dp_event.ok_to_send then
        let sim1 := { sim with
          permitted_dp_events := sim.permitted_dp_events ++ [dp_event] }
        match interactive_check_dataplane_go sim1 rest rest_ans with
        | Except.error e => Except.error e
        | Except.ok (sim2, recs, rest2) =>
          Except.ok (sim2, LogRecord.dataplanePermit dp_event.fingerprint :: recs, rest2)
      else if answer.toLower = "d" then
        let sim1 := { sim with
          dropped_dp_events := sim.dropped_dp_events ++ [dp_event] }
        match interactive_check_dataplane_go sim1 rest rest_ans with
        | Except.error e => Except.error e
        | Except.ok (sim2, recs, rest2) =>
          Except.ok (sim2, LogRecord.dataplaneDrop dp_event.fingerprint :: recs, rest2)
      else
        -- `'e'` and the unknown-answer warning both delay the event
        let sim1 := { sim with
          delayed_dp_events := sim.delayed_dp_events ++ [dp_event] }
        interactive_check_dataplane_go sim1 rest rest_ans

/-- `Interactive.check_dataplane`: only when the patch panel is buffered. -/
def interactive_check_dataplane (sim : ISim) (answers : List String) :
    Except IErr (ISim × List LogRecord × List String) :=
  if sim.patch_panel_buffered then
    interactive_check_dataplane_go { sim with queued_dataplane_events := [] }
      sim.queued_dataplane_events answers
  else Except.ok (sim, [], answers)

/-- `Interactive.check_message_receipts`: schedule every pending receipt,
first-in-first-out, logging each. -/
def interactive_check_message_receipts (sim : ISim) : ISim × List LogRecord :=
  ({ sim with
      pending_receives := []
      scheduled_receives := sim.scheduled_receives ++ sim.pending_receives },
    sim.pending_receives.map
      (fun pr => LogRecord.controlMessageReceive pr.fingerprint pr.dpid pr.controller_id))

/-- One iteration of the `while True` loop of `Interactive.loop` after the
logical-time increment: run the two prompts and the two checks, then ask
whether to continue; the returned flag is false exactly when the stripped
answer is non-empty and not `y`. -/
def interactive_round (sim : ISim) (answers : List String) :
    Except IErr (ISim × List LogRecord × List String × Bool) :=
  match invariant_check_prompt answers with
  | Except.error e => Except.error e
  | Except.ok ans1 =>
    match dataplane_trace_prompt sim ans1 with
    | Except.error e => Except.error e
    | Except.ok (sim1, recs1, ans2) =>
      match interactive_check_dataplane sim1 ans2 with
      | Except.error e => Except.error e
      | Except.ok (sim2, recs2, ans3) =>
        let (sim3, recs3) := interactive_check_message_receipts sim2
        match raw_input ans3 with
        | Except.error e => Except.error e
        | Except.ok (answer, ans4) =>
          let keep_going := ¬(answer.trim ≠ "" ∧ answer.trim.toLower ≠ "y")
          Except.ok (sim3, recs1 ++ recs2 ++ recs3, ans4, keep_going)

/-- `Interactive.loop`, fuelled by the number of available operator answers
(each round consumes at least one, so the fuel never runs out before the
answer stream does; an empty stream is an `EOFError`, which like any other
error lands in the `finally` clause). -/
def interactive_loop_go (it : Interactive) (sims : Nat → ISim) :
    Nat → Nat → List String → LoopResult
  | 0, _, _ => { calls := closeCalls it.input_logger, errored := true }
  | fuel + 1, logical_time, answers =>
    let t1 := logical_time + 1
    match interactive_round (sims t1) answers with
    | Except.error _ => { calls := closeCalls it.input_logger, errored := true }
    | Except.ok (_sim, recs, rest_ans, keep_going) =>
      let logged := logCalls it.input_logger recs
      if keep_going then
        let rest := interactive_loop_go it sims fuel t1 rest_ans
        { calls := logged ++ rest.calls, errored := rest.errored }
      else { calls := logged ++ closeCalls it.input_logger, errored := false }

/-- `Interactive.loop`, started at logical time `logical_time` (0 after
`__init__`). -/
def interactive_loop (it : Interactive) (logical_time : Nat) (sims : Nat → ISim)
    (answers : List String) : LoopResult :=
  interactive_loop_go it sims (answers.length + 1) logical_time answers

/-! ## Round ordering and concrete fixtures -/

/-- The decision-check category a record is emitted from, ranked in the
order the source's `trigger_events` runs the checks: dataplane, control
channel, message receipts, switch failures/recoveries, link
failures/recoveries, traffic injection, controller failures/recoveries. -/
def recCategory : LogRecord → Nat
  | LogRecord.dataplaneDrop _ => 0
  | LogRecord.dataplanePermit _ => 0
  | LogRecord.controlChannelBlock _ _ => 1
  | LogRecord.controlChannelUnBlock _ _ => 1
  | LogRecord.controlMessageReceive _ _ _ => 2
  | LogRecord.switchFailure _ => 3
  | LogRecord.switchRecovery _ => 3
  | LogRecord.linkFailure _ _ _ _ => 4
  | LogRecord.linkRecovery _ _ _ _ => 4
  | LogRecord.trafficInjection _ => 5
  | LogRecord.controllerCrash _ => 6
  | LogRecord.controllerRecovery _ => 6

/-- The category ranking claim C6 asserts: as `recCategory`, except that
controller failures/recoveries are ranked before traffic injection. -/
def claimCategory : LogRecord → Nat
  | LogRecord.dataplaneDrop _ => 0
  | LogRecord.dataplanePermit _ => 0
  | LogRecord.controlChannelBlock _ _ => 1
  | LogRecord.controlChannelUnBlock _ _ => 1
  | LogRecord.controlMessageReceive _ _ _ => 2
  | LogRecord.switchFailure _ => 3
  | LogRecord.switchRecovery _ => 3
  | LogRecord.linkFailure _ _ _ _ => 4
  | LogRecord.linkRecovery _ _ _ _ => 4
  | LogRecord.trafficInjection _ => 6
  | LogRecord.controllerCrash _ => 5
  | LogRecord.controllerRecovery _ => 5

/-- Whether a record sequence is non-decreasing under a category ranking. -/
def orderedBy (f : LogRecord → Nat) : List LogRecord → Bool
  | [] => true
  | [_] => true
  | a :: b :: rest => decide (f a ≤ f b) && orderedBy f (b :: rest)

/-- The records of a `trigger_events` outcome, if it did not raise. -/
def extractRecs : Except FuzzErr (Nat × SimState × List LogRecord) →
    Option (List LogRecord)
  | Except.ok (_, _, recs) => some recs
  | Except.error _ => none

/-- Fuzzer parameters with every rate zero. -/
def zeroParams : FuzzerParams :=
  { dataplane_delay_rate := 0
    dataplane_drop_rate := 0
    controlplane_block_rate := 0
    controlplane_unblock_rate := 0
    ofp_message_receipt_rate := 0
    switch_failure_rate := 0
    switch_recovery_rate := 0
    link_failure_rate := 0
    link_recovery_rate := 0
    traffic_generation_rate := 0
    controller_crash_rate := 0
    controller_recovery_rate := 0 }

/-- A simulation state with nothing in it. -/
def emptySim : SimState :=
  { queued_dataplane_events := []
    delayed_dp_events := []
    dropped_dp_events := []
    permitted_dp_events := []
    unblocked_controller_connections := []
    blocked_controller_connections := []
    pending_receives := []
    scheduled_receives := []
    live_switches := []
    failed_switches := []
    live_links := []
    cut_links := []
    hosts := []
    live_controllers := []
    down_controllers := []
    dataplane_trace := none }

/-- A degenerate pseudo-random generator whose every draw is `0`. -/
def zeroPrg : Rat → Nat → Rat := fun _ _ => 0

/-- A fuzzer certain to inject traffic and crash controllers each round. -/
def c6Fuzzer : Fuzzer :=
  mkFuzzer zeroPrg
    { zeroParams with traffic_generation_rate := 1, controller_crash_rate := 1 }
    35 10 0 (1 / 10) (some 1) true

/-- One host with an interface and one live controller. -/
def c6Sim : SimState :=
  { emptySim with hosts := [{ hid := 7, interfaces := [1] }], live_controllers := [3] }

/-- A fuzzer certain to block every unblocked control channel connection. -/
def c8Fuzzer : Fuzzer :=
  mkFuzzer zeroPrg { zeroParams with controlplane_block_rate := 1 }
    35 10 0 (1 / 10) (some 1) true

/-- One unblocked controller connection (switch dpid 1, controller id 2). -/
def c8Sim : SimState :=
  { emptySim with unblocked_controller_connections := [(1, 2)] }

/-- A connection with its true message handler bound and nothing buffered. -/
def wConn : OFConn :=
  { cid := 1
    dpid := 2
    pending_receipts := []
    pending_sends := []
    true_on_message_handler := some ()
    delivered_to_switch := []
    sent_to_controller := [] }

/-- An interactive simulation slice with nothing in it. -/
def emptyISim : ISim :=
  { patch_panel_buffered := false
    queued_dataplane_events := []
    delayed_dp_events := []
    dropped_dp_events := []
    permitted_dp_events := []
    pending_receives := []
    scheduled_receives := []
    dataplane_trace := none }

/-- `wConn` after a controller-to-switch message `9` arrives. -/
def wConnAfter : OFConn :=
  { wConn with pending_receipts := [(2, 1, 9)] }

/-- Well-formedness of a `Counter` as `ReplaySyncCallback` maintains it:
every stored entry has a strictly positive count. -/
abbrev counterWF {κ : Type} (c : CounterState κ) : Prop :=
  ∀ e ∈ c, 0 < e.2

/-- A concrete pending-state-change key. -/
def wPsc : PendingStateChange :=
  { controller_uuid := 1
    time := { seconds := 0, microSeconds := 0 }
    fingerprint := 2
    name := "n_tables"
    value := 3 }

/-- A second key, distinct from `wPsc`. -/
def wPsc2 : PendingStateChange :=
  { wPsc with controller_uuid := 9 }

/-- A fuzzer that never delays and always drops dataplane events. -/
def c7Fuzzer : Fuzzer :=
  mkFuzzer zeroPrg { zeroParams with dataplane_drop_rate := 1 }
    35 10 0 (1 / 10) (some 1) true

/-- Two queued dataplane events, one deliverable and one not. -/
def c7Sim : SimState :=
  { emptySim with queued_dataplane_events :=
      [{ fingerprint := 11, ok_to_send := true },
        { fingerprint := 12, ok_to_send := false }] }

/-! ## Theorems -/

theorem interpValues_eq_map (dag : List REvent) (s : ReplaySim) :
    interpValues dag s = dag.map (fun ev => compute_interpolated_time ev.time) := by
  unfold interpValues replayerSimulate
  generalize simBootstrap s = s0
  induction dag generalizing s0 with
  | nil => rfl
  | cons ev rest ih => simp [replayerRun, replayerStep, ih]

theorem compute_interpolated_time_mono (a b : SyncTime) (h : timeLe a b) :
    timeLe (compute_interpolated_time a) (compute_interpolated_time b) := by
  unfold timeLe at h ⊢
  unfold compute_interpolated_time time_epsilon_microseconds
  rcases h with h | ⟨h1, h2⟩
  · exact Or.inl h
  · exact Or.inr ⟨h1, by simp; omega⟩

theorem compute_interpolated_time_le (t : SyncTime) (h : 0 ≤ t.microSeconds) :
    timeLe (compute_interpolated_time t) t := by
  unfold timeLe compute_interpolated_time time_epsilon_microseconds
  exact Or.inr ⟨rfl, by simp; omega⟩

theorem compute_interpolated_time_lt (t : SyncTime) (h : 0 < t.microSeconds) :
    timeLt (compute_interpolated_time t) t := by
  unfold timeLt compute_interpolated_time time_epsilon_microseconds
  exact Or.inr ⟨rfl, by simp; omega⟩

/-- C1: `MCSFinder.simulate` is claimed to prune an event permanently if
and only if the violation still reproduces without it, and to return
exactly the violation-relevant subset `S`.  In fact the code never consults
the invariant checker at all and returns the `mcs` list it initialized to
`[]`, for every DAG — so its output cannot equal any non-empty `S`. -/
theorem mcsfinder_simulate_returns_no_events (dag : List REvent) (s : ReplaySim) :
    (mcsfinderSimulate dag s).1 = [] := rfl

/-- C2: a protocol message arriving on a `DeferredOFConnection`, in either
direction, is only inserted into the openflow buffer
(`insert_pending_receipt` for controller-to-switch, `insert_pending_send`
for switch-to-controller) and never reaches the true destination handler at
arrival time; the switch's true handler runs, and the controller is
actually sent a message, only via `allow_message_receipt` /
`allow_message_send`. -/
theorem deferred_connection_defers_all_messages (c c' : OFConn) (op : ConnOp)
    (h : connStep c op = Except.ok c') :
    (match op with
     | ConnOp.receiveFromController m =>
        c'.delivered_to_switch = c.delivered_to_switch ∧
        c'.sent_to_controller = c.sent_to_controller ∧
        c'.pending_receipts = c.pending_receipts ++ [(c.dpid, c.cid, m)] ∧
        c'.pending_sends = c.pending_sends
     | ConnOp.sendFromSwitch m =>
        c'.delivered_to_switch = c.delivered_to_switch ∧
        c'.sent_to_controller = c.sent_to_controller ∧
        c'.pending_sends = c.pending_sends ++ [(c.dpid, c.cid, m)] ∧
        c'.pending_receipts = c.pending_receipts
     | ConnOp.allowMessageReceipt m =>
        c'.delivered_to_switch = c.delivered_to_switch ++ [m] ∧
        c'.sent_to_controller = c.sent_to_controller
     | ConnOp.allowMessageSend m =>
        c'.sent_to_controller = c.sent_to_controller ++ [m] ∧
        c'.delivered_to_switch = c.delivered_to_switch
     | ConnOp.setMessageHandler =>
        c'.delivered_to_switch = c.delivered_to_switch ∧
        c'.sent_to_controller = c.sent_to_controller) := by
  cases op with
  | receiveFromController m =>
    simp only [connStep] at h
    cases h
    simp
  | sendFromSwitch m =>
    simp only [connStep] at h
    cases h
    simp
  | allowMessageReceipt m =>
    simp only [connStep] at h
    cases hh : c.true_on_message_handler with
    | none => rw [hh] at h; cases h
    | some u => rw [hh] at h; cases h; simp
  | allowMessageSend m =>
    simp only [connStep] at h
    cases h
    simp
  | setMessageHandler =>
    simp only [connStep] at h
    cases h
    simp

theorem deferred_connection_defers_all_messages_witness :
    wConnAfter.delivered_to_switch = wConn.delivered_to_switch ∧
    wConnAfter.sent_to_controller = wConn.sent_to_controller ∧
    wConnAfter.pending_receipts = wConn.pending_receipts ++ [(wConn.dpid, wConn.cid, 9)] ∧
    wConnAfter.pending_sends = wConn.pending_sends :=
  deferred_connection_defers_all_messages wConn wConnAfter
    (ConnOp.receiveFromController 9) rfl

/-- C3 counterexample: for a replay pass over the one-event DAG whose event
is stamped 5 seconds, 0 microseconds, the interpolated time equals the
landmark's timestamp (the floor clamps `0 - 500` back to `0`), so it is not
strictly below it as the claim demands. -/
theorem interpolation_strictness_counterexample :
    ¬ interpolationClaim [{ eid := 1, time := { seconds := 5, microSeconds := 0 } }]
        { boots := 0, executed := [] } := by
  intro h
  have h2 := h.2 { eid := 1, time := { seconds := 5, microSeconds := 0 } } (by simp)
  unfold timeLt compute_interpolated_time time_epsilon_microseconds at h2
  simp at h2

/-- C3 amended: over a DAG with chronologically non-decreasing, non-negative
timestamps, the successive `get_interpolated_time` answers of one replay
pass never decrease, and each answer is at most its landmark's timestamp —
strictly below it whenever the landmark's microseconds component is
positive (with `microSeconds = 0` the clamped value equals the
timestamp). -/
theorem interpolated_time_monotone_and_bounded (dag : List REvent) (s : ReplaySim)
    (hmono : List.Chain' timeLe (dag.map (fun ev => ev.time)))
    (hnn : ∀ ev ∈ dag, 0 ≤ ev.time.microSeconds) :
    List.Chain' timeLe (interpValues dag s) ∧
      ∀ ev ∈ dag, timeLe (compute_interpolated_time ev.time) ev.time ∧
        (0 < ev.time.microSeconds → timeLt (compute_interpolated_time ev.time) ev.time) := by
  constructor
  · rw [interpValues_eq_map]
    rw [List.chain'_map] at hmono ⊢
    exact hmono.imp (fun a b hab => compute_interpolated_time_mono _ _ hab)
  · intro ev hev
    exact ⟨compute_interpolated_time_le ev.time (hnn ev hev),
      fun hpos => compute_interpolated_time_lt ev.time hpos⟩

theorem interpolated_time_monotone_and_bounded_witness :
    (List.Chain' timeLe
      (interpValues [{ eid := 1, time := { seconds := 5, microSeconds := 600 } },
        { eid := 2, time := { seconds := 6, microSeconds := 0 } }]
        { boots := 0, executed := [] }) ∧
      ∀ ev ∈ [({ eid := 1, time := { seconds := 5, microSeconds := 600 } } : REvent),
        { eid := 2, time := { seconds := 6, microSeconds := 0 } }],
        timeLe (compute_interpolated_time ev.time) ev.time ∧
          (0 < ev.time.microSeconds →
            timeLt (compute_interpolated_time ev.time) ev.time)) :=
  interpolated_time_monotone_and_bounded
    [{ eid := 1, time := { seconds := 5, microSeconds := 600 } },
      { eid := 2, time := { seconds := 6, microSeconds := 0 } }]
    { boots := 0, executed := [] }
    (by simp [List.chain'_cons, List.chain'_singleton]; decide) (by decide)

theorem counterGet_counterSet_self {κ : Type} [DecidableEq κ]
    (c : CounterState κ) (k : κ) (v : Int) :
    counterGet (counterSet c k v) k = v := by
  induction c with
  | nil => simp [counterSet, counterGet, List.find?]
  | cons e rest ih =>
    by_cases h : e.1 = k
    · simp [counterSet, h, counterGet, List.find?]
    · simp only [counterSet, if_neg h]
      unfold counterGet at ih ⊢
      rw [List.find?_cons_of_neg]
      · exact ih
      · simpa using h

theorem mem_counterSet {κ : Type} [DecidableEq κ]
    (c : CounterState κ) (k : κ) (v : Int) (e : κ × Int) :
    e ∈ counterSet c k v → e ∈ c ∨ e = (k, v) := by
  induction c with
  | nil =>
    intro he
    simp [counterSet] at he
    exact Or.inr he
  | cons x rest ih =>
    intro he
    by_cases h : x.1 = k
    · simp only [counterSet, if_pos h, List.mem_cons] at he
      rcases he with he | he
      · exact Or.inr he
      · exact Or.inl (List.mem_cons_of_mem x he)
    · simp only [counterSet, if_neg h, List.mem_cons] at he
      rcases he with he | he
      · exact Or.inl (List.mem_cons.mpr (Or.inl he))
      · rcases ih he with h1 | h1
        · exact Or.inl (List.mem_cons_of_mem x h1)
        · exact Or.inr h1

theorem counterGet_nonneg {κ : Type} [DecidableEq κ]
    (c : CounterState κ) (hwf : counterWF c) (k : κ) :
    0 ≤ counterGet c k := by
  unfold counterGet
  cases hf : c.find? (fun e => e.1 = k) with
  | none => simp
  | some e =>
    have hm := List.mem_of_find?_eq_some hf
    have hp := hwf e hm
    show 0 ≤ e.2
    omega

theorem find?_eq_none_of_nonpos {κ : Type} [DecidableEq κ]
    (c : CounterState κ) (hwf : counterWF c) (k : κ)
    (h : counterGet c k ≤ 0) : c.find? (fun e => e.1 = k) = none := by
  cases hf : c.find? (fun e => e.1 = k) with
  | none => rfl
  | some e =>
    exfalso
    have hm := List.mem_of_find?_eq_some hf
    have hpos := hwf e hm
    unfold counterGet at h
    rw [hf] at h
    have h' : e.2 ≤ 0 := h
    omega

theorem counterSet_absent {κ : Type} [DecidableEq κ]
    (c : CounterState κ) (k : κ) (v : Int) (h : ∀ e ∈ c, ¬ e.1 = k) :
    counterSet c k v = c ++ [(k, v)] := by
  induction c with
  | nil => simp [counterSet]
  | cons x rest ih =>
    have hx : ¬ x.1 = k := h x (List.mem_cons_self x rest)
    simp only [counterSet, if_neg hx, List.cons_append, List.cons.injEq, true_and]
    exact ih (fun e he => h e (List.mem_cons_of_mem x he))

theorem counterDel_append_absent {κ : Type} [DecidableEq κ]
    (c : CounterState κ) (k : κ) (v : Int) (h : ∀ e ∈ c, ¬ e.1 = k) :
    counterDel (c ++ [(k, v)]) k = c := by
  unfold counterDel
  rw [List.filter_append]
  have h1 : c.filter (fun e => ¬ e.1 = k) = c :=
    List.filter_eq_self.mpr (fun e he => by simpa using h e he)
  have h2 : List.filter (fun (e : κ × Int) => ¬ e.1 = k) [(k, v)] = [] := by
    simp [List.filter]
  rw [h1, h2, List.append_nil]

theorem counterWF_state_change {κ : Type} [DecidableEq κ]
    (c : CounterState κ) (k : κ) (h : counterWF c) :
    counterWF (state_change c k) := by
  intro e he
  unfold state_change at he
  rcases mem_counterSet _ _ _ e he with he' | he'
  · exact h e he'
  · have := counterGet_nonneg c h k
    rw [he']
    show 0 < counterGet c k + 1
    omega

theorem counterWF_gc {κ : Type} [DecidableEq κ]
    (c : CounterState κ) (k : κ) (h : counterWF c) :
    counterWF (gc_pending_state_change c k) := by
  unfold gc_pending_state_change
  by_cases hc : counterGet (counterSet c k (counterGet c k - 1)) k ≤ 0
  · rw [if_pos hc]
    intro e he
    unfold counterDel at he
    rw [List.mem_filter] at he
    rcases mem_counterSet _ _ _ e he.1 with h1 | h1
    · exact h e h1
    · exfalso
      have hne : ¬ e.1 = k := by simpa using he.2
      rw [h1] at hne
      exact hne rfl
  · rw [if_neg hc]
    intro e he
    rw [counterGet_counterSet_self] at hc
    rcases mem_counterSet _ _ _ e he with h1 | h1
    · exact h e h1
    · rw [h1]
      show 0 < counterGet c k - 1
      omega

theorem counterWF_applySyncOps {κ : Type} [DecidableEq κ]
    (ops : List (SyncOp κ)) :
    ∀ c : CounterState κ, counterWF c → counterWF (applySyncOps c ops) := by
  induction ops with
  | nil => intro c h; exact h
  | cons op rest ih =>
    intro c h
    cases op with
    | stateChange k => exact ih _ (counterWF_state_change c k h)
    | gcPending k => exact ih _ (counterWF_gc c k h)

theorem gc_absent_noop {κ : Type} [DecidableEq κ]
    (c : CounterState κ) (k : κ) (hwf : counterWF c) (h : counterGet c k ≤ 0) :
    gc_pending_state_change c k = c := by
  have habs : ∀ e ∈ c, ¬ e.1 = k := by
    have hf := find?_eq_none_of_nonpos c hwf k h
    intro e he
    have := List.find?_eq_none.mp hf e he
    simpa using this
  have hset : counterSet c k (counterGet c k - 1) = c ++ [(k, counterGet c k - 1)] :=
    counterSet_absent c k _ habs
  have hget : counterGet (counterSet c k (counterGet c k - 1)) k = counterGet c k - 1 :=
    counterGet_counterSet_self c k _
  have hz : counterGet c k = 0 := le_antisymm h (counterGet_nonneg c hwf k)
  unfold gc_pending_state_change
  rw [if_pos (by rw [hget]; omega)]
  rw [hset]
  exact counterDel_append_absent c k _ habs

theorem counterGet_singleton {κ : Type} [DecidableEq κ] (p : κ) (v : Int) :
    counterGet [(p, v)] p = v := by
  simp [counterGet, List.find?]

theorem state_change_singleton {κ : Type} [DecidableEq κ] (p : κ) (v : Int) :
    state_change [(p, v)] p = [(p, v + 1)] := by
  unfold state_change
  rw [counterGet_singleton]
  simp [counterSet]

theorem gc_step_pos {κ : Type} [DecidableEq κ] (p : κ) (v : Int) (hv : 1 < v) :
    gc_pending_state_change [(p, v)] p = [(p, v - 1)] := by
  unfold gc_pending_state_change
  rw [counterGet_singleton]
  have h2 : counterSet [(p, v)] p (v - 1) = [(p, v - 1)] := by simp [counterSet]
  rw [h2, if_neg]
  rw [counterGet_singleton]
  omega

theorem gc_step_one {κ : Type} [DecidableEq κ] (p : κ) :
    gc_pending_state_change [(p, 1)] p = [] := by
  unfold gc_pending_state_change
  rw [counterGet_singleton]
  have h2 : counterSet [(p, (1 : Int))] p (1 - 1) = [(p, 0)] := by
    simp [counterSet]
  rw [h2, if_pos]
  · simp [counterDel, List.filter]
  · rw [counterGet_singleton]

theorem state_change_iter {κ : Type} [DecidableEq κ] (p : κ) :
    ∀ k : Nat,
      (fun c => state_change c p)^[k + 1] (initialPendingStateChanges κ) =
        [(p, (k : Int) + 1)] := by
  intro k
  induction k with
  | zero =>
    simp [Function.iterate_one, initialPendingStateChanges, state_change,
      counterGet, counterSet, List.find?]
  | succ n ih =>
    rw [Function.iterate_succ_apply', ih]
    show state_change [(p, (n : Int) + 1)] p = [(p, ((n + 1 : Nat) : Int) + 1)]
    rw [state_change_singleton]
    have hc : ((n + 1 : Nat) : Int) + 1 = (n : Int) + 1 + 1 := by push_cast; ring
    rw [hc]

theorem gc_iter {κ : Type} [DecidableEq κ] (p : κ) :
    ∀ k : Nat, (fun c => gc_pending_state_change c p)^[k + 1] [(p, (k : Int) + 1)] = [] := by
  intro k
  induction k with
  | zero =>
    show gc_pending_state_change [(p, (0 : Int) + 1)] p = []
    rw [show ((0 : Int) + 1) = 1 by ring]
    exact gc_step_one p
  | succ n ih =>
    rw [Function.iterate_succ_apply]
    have h1 : gc_pending_state_change [(p, ((n + 1 : Nat) : Int) + 1)] p =
        [(p, (n : Int) + 1)] := by
      rw [gc_step_pos p _ (by push_cast; omega)]
      have hc : ((n + 1 : Nat) : Int) + 1 - 1 = (n : Int) + 1 := by push_cast; ring
      rw [hc]
    rw [h1]
    exact ih

/-- C5: `k` `state_change` reports with the same `PendingStateChange` key
`p` on a fresh `ReplaySyncCallback` make `state_change_pending p` true with
multiset count exactly `k`; `k` matching `gc_pending_state_change` calls
then bring the count back to `0` and remove `p` from the internal
storage. -/
theorem pending_state_change_counts (p : PendingStateChange) (k : Nat) (hk : 0 < k) :
    state_change_pending
        ((fun c => state_change c p)^[k] (initialPendingStateChanges PendingStateChange))
        p = true ∧
      counterGet
        ((fun c => state_change c p)^[k] (initialPendingStateChanges PendingStateChange))
        p = (k : Int) ∧
      counterGet
        ((fun c => gc_pending_state_change c p)^[k]
          ((fun c => state_change c p)^[k] (initialPendingStateChanges PendingStateChange)))
        p = 0 ∧
      ((fun c => gc_pending_state_change c p)^[k]
          ((fun c => state_change c p)^[k]
            (initialPendingStateChanges PendingStateChange))).find?
        (fun e => e.1 = p) = none := by
  obtain ⟨k', rfl⟩ : ∃ k', k = k' + 1 := ⟨k - 1, by omega⟩
  rw [state_change_iter p k', gc_iter p k']
  refine ⟨?_, ?_, ?_, ?_⟩
  · simp [state_change_pending, counterGet, List.find?]
  · simp [counterGet, List.find?]
  · simp [counterGet, List.find?]
  · simp [List.find?]

theorem pending_state_change_counts_witness :
    state_change_pending
        ((fun c => state_change c wPsc)^[2] (initialPendingStateChanges PendingStateChange))
        wPsc = true ∧
      counterGet
        ((fun c => state_change c wPsc)^[2] (initialPendingStateChanges PendingStateChange))
        wPsc = (2 : Int) ∧
      counterGet
        ((fun c => gc_pending_state_change c wPsc)^[2]
          ((fun c => state_change c wPsc)^[2]
            (initialPendingStateChanges PendingStateChange)))
        wPsc = 0 ∧
      ((fun c => gc_pending_state_change c wPsc)^[2]
          ((fun c => state_change c wPsc)^[2]
            (initialPendingStateChanges PendingStateChange))).find?
        (fun e => e.1 = wPsc) = none :=
  pending_state_change_counts wPsc 2 (by decide)

/-- C10: after any sequence of `state_change` / `gc_pending_state_change`
calls on a fresh `ReplaySyncCallback`, every key present in the internal
storage has a strictly positive count, and `gc_pending_state_change` on a
key with no outstanding reports (count `≤ 0`, i.e. absent) leaves the
multiset unchanged — in particular no negative-count entry is ever left
stored. -/
theorem pending_state_changes_invariant (ops : List (SyncOp PendingStateChange)) :
    counterWF (applySyncOps (initialPendingStateChanges PendingStateChange) ops) ∧
      ∀ p : PendingStateChange,
        counterGet (applySyncOps (initialPendingStateChanges PendingStateChange) ops) p ≤ 0 →
        gc_pending_state_change
            (applySyncOps (initialPendingStateChanges PendingStateChange) ops) p =
          applySyncOps (initialPendingStateChanges PendingStateChange) ops := by
  have hwf : counterWF (applySyncOps (initialPendingStateChanges PendingStateChange) ops) :=
    counterWF_applySyncOps ops (initialPendingStateChanges PendingStateChange)
      (by intro e he; simp [initialPendingStateChanges] at he)
  exact ⟨hwf, fun p hp => gc_absent_noop _ p hwf hp⟩

theorem pending_state_changes_invariant_witness :
    gc_pending_state_change
        (applySyncOps (initialPendingStateChanges PendingStateChange)
          [SyncOp.stateChange wPsc]) wPsc2 =
      applySyncOps (initialPendingStateChanges PendingStateChange)
        [SyncOp.stateChange wPsc] :=
  (pending_state_changes_invariant [SyncOp.stateChange wPsc]).2 wPsc2 (by decide)

/-- C4: two `Fuzzer` instances constructed over the same pseudo-random
generator family with equal seeds and equal parameters, driven against the
same sequence of simulation states, make identical randomized decisions: the
runs coincide entirely, and in particular the sequences of Input Logger
calls are identical. -/
theorem fuzzer_deterministic (prg : Rat → Nat → Rat) (p1 p2 : FuzzerParams)
    (ci ti : Nat) (s1 s2 d : Rat) (st : Option Nat) (lg : Bool)
    (i t : Nat) (sims : Nat → SimState)
    (hseed : s1 = s2) (hparams : p1 = p2) :
    fuzzer_loop (mkFuzzer prg p1 ci ti s1 d st lg) i t sims =
        fuzzer_loop (mkFuzzer prg p2 ci ti s2 d st lg) i t sims ∧
      (fuzzer_loop (mkFuzzer prg p1 ci ti s1 d st lg) i t sims).calls =
        (fuzzer_loop (mkFuzzer prg p2 ci ti s2 d st lg) i t sims).calls := by
  subst hseed
  subst hparams
  exact ⟨rfl, rfl⟩

theorem fuzzer_deterministic_witness :
    fuzzer_loop (mkFuzzer zeroPrg zeroParams 35 10 0 (1 / 10) (some 1) true) 0 0
        (fun _ => emptySim) =
      fuzzer_loop (mkFuzzer zeroPrg zeroParams 35 10 0 (1 / 10) (some 1) true) 0 0
        (fun _ => emptySim) ∧
      (fuzzer_loop (mkFuzzer zeroPrg zeroParams 35 10 0 (1 / 10) (some 1) true) 0 0
        (fun _ => emptySim)).calls =
      (fuzzer_loop (mkFuzzer zeroPrg zeroParams 35 10 0 (1 / 10) (some 1) true) 0 0
        (fun _ => emptySim)).calls :=
  fuzzer_deterministic zeroPrg zeroParams zeroParams 35 10 0 0 (1 / 10) (some 1) true
    0 0 (fun _ => emptySim) rfl rfl

/-- C8: the claim says a round's block/unblock operations complete and are
logged without raising.  In fact `check_tcp_connections` reads
`self.topology` — an attribute `Fuzzer` never assigns (elsewhere the class
uses `self.simulation.topology`) — so the very first block decision raises
`AttributeError`: here, with one unblocked connection and
`controlplane_block_rate = 1`. -/
theorem check_tcp_connections_attribute_error :
    check_tcp_connections c8Fuzzer 0 c8Sim = Except.error FuzzErr.attributeError := by
  rfl

theorem count_close_logCalls (b : Bool) (recs : List LogRecord) :
    (logCalls b recs).count LoggerCall.close = 0 := by
  cases b with
  | false => simp [logCalls]
  | true =>
    simp only [logCalls, if_pos rfl]
    rw [List.count_eq_zero]
    intro hmem
    simp [List.mem_map] at hmem

theorem fuzzer_loop_go_close_count (fz : Fuzzer) (sims : Nat → SimState)
    (hlog : fz.input_logger = true) :
    ∀ (fuel i t : Nat),
      (fuzzer_loop_go fz sims fuel i t).calls.count LoggerCall.close = 1 := by
  intro fuel
  induction fuel with
  | zero =>
    intro i t
    simp [fuzzer_loop_go, closeCalls, hlog]
  | succ n ih =>
    intro i t
    rw [fuzzer_loop_go]
    cases htr : trigger_events fz i (sims (t + 1)) with
    | error e => simp [closeCalls, hlog]
    | ok v =>
      rcases v with ⟨i2, sim2, recs⟩
      rcases hmi : maybe_inject_trace_event fz (t + 1) sim2 with ⟨sim3, recs2⟩
      simp only [hmi]
      simp [List.count_append, count_close_logCalls, ih i2 (t + 1)]

theorem interactive_loop_go_close_count (it : Interactive) (sims : Nat → ISim)
    (hlog : it.input_logger = true) :
    ∀ (fuel t : Nat) (answers : List String),
      (interactive_loop_go it sims fuel t answers).calls.count LoggerCall.close = 1 := by
  intro fuel
  induction fuel with
  | zero =>
    intro t answers
    simp [interactive_loop_go, closeCalls, hlog]
  | succ n ih =>
    intro t answers
    rw [interactive_loop_go]
    cases hr : interactive_round (sims (t + 1)) answers with
    | error e => simp [closeCalls, hlog]
    | ok v =>
      rcases v with ⟨sim, recs, rest_ans, kg⟩
      cases kg with
      | true => simp [List.count_append, count_close_logCalls, ih (t + 1) rest_ans]
      | false => simp [List.count_append, count_close_logCalls, closeCalls, hlog]

/-- C9: both the `Fuzzer` round loop and the `Interactive` loop, when
constructed with an input logger, invoke the Input Logger's `close` exactly
once on exit — whether the round budget runs out, the operator ends the
session, or the loop body terminates via an error (the `try`/`finally`
structure). -/
theorem input_logger_closed_exactly_once :
    (∀ (fz : Fuzzer) (i t : Nat) (sims : Nat → SimState), fz.input_logger = true →
        (fuzzer_loop fz i t sims).calls.count LoggerCall.close = 1) ∧
      ∀ (it : Interactive) (t : Nat) (sims : Nat → ISim) (answers : List String),
        it.input_logger = true →
        (interactive_loop it t sims answers).calls.count LoggerCall.close = 1 := by
  constructor
  · intro fz i t sims hlog
    unfold fuzzer_loop
    exact fuzzer_loop_go_close_count fz sims hlog _ i t
  · intro it t sims answers hlog
    unfold interactive_loop
    exact interactive_loop_go_close_count it sims hlog _ t answers

theorem input_logger_closed_exactly_once_witness :
    (fuzzer_loop c8Fuzzer 0 0 (fun _ => c8Sim)).calls.count LoggerCall.close = 1 ∧
      (interactive_loop { input_logger := true } 0 (fun _ => emptyISim)
        ["n"]).calls.count LoggerCall.close = 1 :=
  ⟨input_logger_closed_exactly_once.1 c8Fuzzer 0 0 (fun _ => c8Sim) rfl,
    input_logger_closed_exactly_once.2 { input_logger := true } 0 (fun _ => emptyISim)
      ["n"] rfl⟩

theorem orderedBy_of_const (f : LogRecord → Nat) (a : Nat) :
    ∀ l : List LogRecord, (∀ r ∈ l, f r = a) → orderedBy f l = true := by
  intro l
  induction l with
  | nil => intro _; rfl
  | cons x rest ih =>
    intro h
    cases rest with
    | nil => rfl
    | cons y rest2 =>
      rw [orderedBy, Bool.and_eq_true]
      refine ⟨?_, ih (fun r hr => h r (List.mem_cons_of_mem x hr))⟩
      have hx := h x (List.mem_cons_self x (y :: rest2))
      have hy := h y (List.mem_cons_of_mem x (List.mem_cons_self y rest2))
      simp [hx, hy]

theorem orderedBy_append (f : LogRecord → Nat) :
    ∀ (l1 l2 : List LogRecord), orderedBy f l1 = true → orderedBy f l2 = true →
      (∀ r ∈ l1, ∀ s ∈ l2, f r ≤ f s) → orderedBy f (l1 ++ l2) = true := by
  intro l1
  induction l1 with
  | nil => intro l2 _ h2 _; simpa using h2
  | cons x rest ih =>
    intro l2 h1 h2 hcross
    cases rest with
    | nil =>
      cases l2 with
      | nil => rfl
      | cons y l2' =>
        simp only [List.cons_append, List.nil_append]
        rw [orderedBy, Bool.and_eq_true]
        refine ⟨?_, h2⟩
        have := hcross x (List.mem_cons_self x []) y (List.mem_cons_self y l2')
        simpa using this
    | cons x2 rest2 =>
      rw [orderedBy, Bool.and_eq_true] at h1
      simp only [List.cons_append]
      rw [orderedBy, Bool.and_eq_true]
      refine ⟨h1.1, ?_⟩
      have := ih l2 h1.2 h2
        (fun r hr s hs => hcross r (List.mem_cons_of_mem x hr) s hs)
      simpa using this

theorem check_dataplane_go_cat (fz : Fuzzer) :
    ∀ (l : List DpEvent) (i : Nat) (sim : SimState),
      ∀ r ∈ (check_dataplane_go fz i sim l).2.2, recCategory r = 0 := by
  intro l
  induction l with
  | nil => intro i sim r hr; simp [check_dataplane_go] at hr
  | cons e rest ih =>
    intro i sim r hr
    rw [check_dataplane_go] at hr
    simp only [nextRand] at hr
    split at hr
    · exact ih _ _ r hr
    · split at hr
      · simp at hr
        rcases hr with rfl | hr
        · rfl
        · exact ih _ _ r hr
      · split at hr
        · simp at hr
          rcases hr with rfl | hr
          · rfl
          · exact ih _ _ r hr
        · exact ih _ _ r hr

theorem check_dataplane_cat (fz : Fuzzer) (i : Nat) (sim : SimState) :
    ∀ r ∈ (check_dataplane fz i sim).2.2, recCategory r = 0 := by
  unfold check_dataplane
  exact check_dataplane_go_cat fz _ _ _

theorem check_message_receipts_go_cat (fz : Fuzzer) :
    ∀ (l : List Receipt) (i : Nat) (sim : SimState),
      ∀ r ∈ (check_message_receipts_go fz i sim l).2.2, recCategory r = 2 := by
  intro l
  induction l with
  | nil => intro i sim r hr; simp [check_message_receipts_go] at hr
  | cons pr rest ih =>
    intro i sim r hr
    rw [check_message_receipts_go] at hr
    simp only [nextRand] at hr
    split at hr
    · simp at hr
      rcases hr with rfl | hr
      · rfl
      · exact ih _ _ r hr
    · exact ih _ _ r hr

theorem crash_switches_go_cat (fz : Fuzzer) :
    ∀ (l : List Nat) (i : Nat) (sim : SimState),
      ∀ r ∈ (crash_switches_go fz i sim l).2.2.1, recCategory r = 3 := by
  intro l
  induction l with
  | nil => intro i sim r hr; simp [crash_switches_go] at hr
  | cons sw rest ih =>
    intro i sim r hr
    rw [crash_switches_go] at hr
    simp only [nextRand] at hr
    split at hr
    · simp at hr
      rcases hr with rfl | hr
      · rfl
      · exact ih _ _ r hr
    · exact ih _ _ r hr

theorem restart_switches_go_cat (fz : Fuzzer) :
    ∀ (l crashed : List Nat) (i : Nat) (sim : SimState),
      ∀ r ∈ (restart_switches_go fz i sim crashed l).2.2, recCategory r = 3 := by
  intro l
  induction l with
  | nil => intro crashed i sim r hr; simp [restart_switches_go] at hr
  | cons sw rest ih =>
    intro crashed i sim r hr
    rw [restart_switches_go] at hr
    simp only [nextRand] at hr
    split at hr
    · exact ih _ _ _ r hr
    · split at hr
      · simp at hr
        rcases hr with rfl | hr
        · rfl
        · exact ih _ _ _ r hr
      · exact ih _ _ _ r hr

theorem sever_links_go_cat (fz : Fuzzer) :
    ∀ (l : List NetLink) (i : Nat) (sim : SimState),
      ∀ r ∈ (sever_links_go fz i sim l).2.2.1, recCategory r = 4 := by
  intro l
  induction l with
  | nil => intro i sim r hr; simp [sever_links_go] at hr
  | cons link rest ih =>
    intro i sim r hr
    rw [sever_links_go] at hr
    simp only [nextRand] at hr
    split at hr
    · simp at hr
      rcases hr with rfl | hr
      · rfl
      · exact ih _ _ r hr
    · exact ih _ _ r hr

theorem repair_links_go_cat (fz : Fuzzer) :
    ∀ (l cut : List NetLink) (i : Nat) (sim : SimState),
      ∀ r ∈ (repair_links_go fz i sim cut l).2.2, recCategory r = 4 := by
  intro l
  induction l with
  | nil => intro cut i sim r hr; simp [repair_links_go] at hr
  | cons link rest ih =>
    intro cut i sim r hr
    rw [repair_links_go] at hr
    simp only [nextRand] at hr
    split at hr
    · exact ih _ _ _ r hr
    · split at hr
      · simp at hr
        rcases hr with rfl | hr
        · rfl
        · exact ih _ _ _ r hr
      · exact ih _ _ _ r hr

theorem fuzz_traffic_go_cat (fz : Fuzzer) :
    ∀ (l : List HostEnt) (i : Nat),
      ∀ r ∈ (fuzz_traffic_go fz i l).2, recCategory r = 5 := by
  intro l
  induction l with
  | nil => intro i r hr; simp [fuzz_traffic_go] at hr
  | cons host rest ih =>
    intro i r hr
    rw [fuzz_traffic_go] at hr
    simp only [nextRand] at hr
    split at hr
    · split at hr
      · simp at hr
        rcases hr with rfl | hr
        · rfl
        · exact ih _ r hr
      · exact ih _ r hr
    · exact ih _ r hr

theorem fuzz_traffic_cat (fz : Fuzzer) (i : Nat) (sim : SimState) :
    ∀ r ∈ (fuzz_traffic fz i sim).2.2, recCategory r = 5 := by
  unfold fuzz_traffic
  split
  · intro r hr; simp at hr
  · rcases hgo : fuzz_traffic_go fz i sim.hosts with ⟨i1, recs⟩
    intro r hr
    simp at hr
    have := fuzz_traffic_go_cat fz sim.hosts i r
    rw [hgo] at this
    exact this hr

theorem crash_controllers_go_cat (fz : Fuzzer) :
    ∀ (l : List Nat) (i : Nat) (sim : SimState),
      ∀ r ∈ (crash_controllers_go fz i sim l).2.2.1, recCategory r = 6 := by
  intro l
  induction l with
  | nil => intro i sim r hr; simp [crash_controllers_go] at hr
  | cons ctrl rest ih =>
    intro i sim r hr
    rw [crash_controllers_go] at hr
    simp only [nextRand] at hr
    split at hr
    · simp at hr
      rcases hr with rfl | hr
      · rfl
      · exact ih _ _ r hr
    · exact ih _ _ r hr

theorem reboot_controllers_go_cat (fz : Fuzzer) :
    ∀ (l crashed : List Nat) (i : Nat) (sim : SimState),
      ∀ r ∈ (reboot_controllers_go fz i sim crashed l).2.2, recCategory r = 6 := by
  intro l
  induction l with
  | nil => intro crashed i sim r hr; simp [reboot_controllers_go] at hr
  | cons ctrl rest ih =>
    intro crashed i sim r hr
    rw [reboot_controllers_go] at hr
    simp only [nextRand] at hr
    split at hr
    · exact ih _ _ _ r hr
    · split at hr
      · simp at hr
        rcases hr with rfl | hr
        · rfl
        · exact ih _ _ _ r hr
      · exact ih _ _ _ r hr

theorem tcp_block_go_cat (fz : Fuzzer) :
    ∀ (l : List (Nat × Nat)) (i : Nat) (sim : SimState) (i' : Nat) (sim' : SimState)
      (recs : List LogRecord),
      tcp_block_go fz i sim l = Except.ok (i', sim', recs) →
      ∀ r ∈ recs, recCategory r = 1 := by
  intro l
  induction l with
  | nil =>
    intro i sim i' sim' recs h r hr
    simp [tcp_block_go] at h
    rw [h.2.2] at hr
    simp at hr
  | cons pr rest ih =>
    intro i sim i' sim' recs h r hr
    rcases pr with ⟨dpid, cid⟩
    rw [tcp_block_go] at h
    simp only [nextRand] at h
    split at h
    · split at h
      · cases h
      · split at h
        · cases h
        · next i2 sim2 recs2 heq =>
          cases h
          simp at hr
          rcases hr with rfl | hr
          · rfl
          · exact ih _ _ _ _ _ heq r hr
    · exact ih _ _ _ _ _ h r hr

theorem tcp_unblock_go_cat (fz : Fuzzer) :
    ∀ (l : List (Nat × Nat)) (i : Nat) (sim : SimState) (i' : Nat) (sim' : SimState)
      (recs : List LogRecord),
      tcp_unblock_go fz i sim l = Except.ok (i', sim', recs) →
      ∀ r ∈ recs, recCategory r = 1 := by
  intro l
  induction l with
  | nil =>
    intro i sim i' sim' recs h r hr
    simp [tcp_unblock_go] at h
    rw [h.2.2] at hr
    simp at hr
  | cons pr rest ih =>
    intro i sim i' sim' recs h r hr
    rcases pr with ⟨dpid, cid⟩
    rw [tcp_unblock_go] at h
    simp only [nextRand] at h
    split at h
    · split at h
      · cases h
      · split at h
        · cases h
        · next i2 sim2 recs2 heq =>
          cases h
          simp at hr
          rcases hr with rfl | hr
          · rfl
          · exact ih _ _ _ _ _ heq r hr
    · exact ih _ _ _ _ _ h r hr

theorem check_tcp_connections_cat (fz : Fuzzer) (i : Nat) (sim : SimState)
    (i' : Nat) (sim' : SimState) (recs : List LogRecord)
    (h : check_tcp_connections fz i sim = Except.ok (i', sim', recs)) :
    ∀ r ∈ recs, recCategory r = 1 := by
  unfold check_tcp_connections at h
  cases h1 : tcp_block_go fz i sim sim.unblocked_controller_connections with
  | error e => rw [h1] at h; cases h
  | ok v1 =>
    rcases v1 with ⟨i1, sim1, recs1⟩
    simp only [h1] at h
    cases h2 : tcp_unblock_go fz i1 sim1 sim1.blocked_controller_connections with
    | error e => simp only [h2] at h; cases h
    | ok v2 =>
      rcases v2 with ⟨i2, sim2, recs2⟩
      simp only [h2] at h
      cases h
      intro r hr
      rw [List.mem_append] at hr
      rcases hr with hr | hr
      · exact tcp_block_go_cat fz _ _ _ _ _ _ h1 r hr
      · exact tcp_unblock_go_cat fz _ _ _ _ _ _ h2 r hr

theorem check_switch_crashes_cat (fz : Fuzzer) (i : Nat) (sim : SimState) :
    (∀ r ∈ (check_switch_crashes fz i sim).2.2,
        3 ≤ recCategory r ∧ recCategory r ≤ 4) ∧
      orderedBy recCategory (check_switch_crashes fz i sim).2.2 = true := by
  unfold check_switch_crashes
  rcases h1 : crash_switches_go fz i sim sim.live_switches with ⟨i1, sim1, recs1, crashed⟩
  rcases h2 : restart_switches_go fz i1 sim1 crashed sim1.failed_switches with
    ⟨i2, sim2, recs2⟩
  rcases h3 : sever_links_go fz i2 sim2 sim2.live_links with ⟨i3, sim3, recs3, cut⟩
  rcases h4 : repair_links_go fz i3 sim3 cut sim3.cut_links with ⟨i4, sim4, recs4⟩
  simp only [h1, h2, h3, h4]
  have hc1 : ∀ r ∈ recs1, recCategory r = 3 := by
    intro r hr
    have := crash_switches_go_cat fz sim.live_switches i sim r
    rw [h1] at this
    exact this hr
  have hc2 : ∀ r ∈ recs2, recCategory r = 3 := by
    intro r hr
    have := restart_switches_go_cat fz sim1.failed_switches crashed i1 sim1 r
    rw [h2] at this
    exact this hr
  have hc3 : ∀ r ∈ recs3, recCategory r = 4 := by
    intro r hr
    have := sever_links_go_cat fz sim2.live_links i2 sim2 r
    rw [h3] at this
    exact this hr
  have hc4 : ∀ r ∈ recs4, recCategory r = 4 := by
    intro r hr
    have := repair_links_go_cat fz sim3.cut_links cut i3 sim3 r
    rw [h4] at this
    exact this hr
  constructor
  · intro r hr
    simp only [List.mem_append] at hr
    rcases hr with ((hr | hr) | hr) | hr
    · rw [hc1 r hr]; omega
    · rw [hc2 r hr]; omega
    · rw [hc3 r hr]; omega
    · rw [hc4 r hr]; omega
  · have o34 : orderedBy recCategory (recs3 ++ recs4) = true :=
      orderedBy_append recCategory recs3 recs4
        (orderedBy_of_const recCategory 4 recs3 hc3)
        (orderedBy_of_const recCategory 4 recs4 hc4)
        (fun r hr s hs => by rw [hc3 r hr, hc4 s hs])
    have o234 : orderedBy recCategory (recs2 ++ (recs3 ++ recs4)) = true :=
      orderedBy_append recCategory recs2 (recs3 ++ recs4)
        (orderedBy_of_const recCategory 3 recs2 hc2) o34
        (fun r hr s hs => by
          rw [List.mem_append] at hs
          rcases hs with hs | hs
          · rw [hc2 r hr, hc3 s hs]; omega
          · rw [hc2 r hr, hc4 s hs]; omega)
    have o1234 : orderedBy recCategory (recs1 ++ (recs2 ++ (recs3 ++ recs4))) = true :=
      orderedBy_append recCategory recs1 (recs2 ++ (recs3 ++ recs4))
        (orderedBy_of_const recCategory 3 recs1 hc1) o234
        (fun r hr s hs => by
          simp only [List.mem_append] at hs
          rcases hs with hs | hs | hs
          · rw [hc1 r hr, hc2 s hs]
          · rw [hc1 r hr, hc3 s hs]; omega
          · rw [hc1 r hr, hc4 s hs]; omega)
    simpa [List.append_assoc] using o1234

theorem check_controllers_cat (fz : Fuzzer) (i : Nat) (sim : SimState) :
    ∀ r ∈ (check_controllers fz i sim).2.2, recCategory r = 6 := by
  unfold check_controllers
  rcases h1 : crash_controllers_go fz i sim sim.live_controllers with
    ⟨i1, sim1, recs1, crashed⟩
  rcases h2 : reboot_controllers_go fz i1 sim1 crashed sim1.down_controllers with
    ⟨i2, sim2, recs2⟩
  simp only [h1, h2]
  intro r hr
  simp only [List.mem_append] at hr
  rcases hr with hr | hr
  · have := crash_controllers_go_cat fz sim.live_controllers i sim r
    rw [h1] at this
    exact this hr
  · have := reboot_controllers_go_cat fz sim1.down_controllers crashed i1 sim1 r
    rw [h2] at this
    exact this hr

theorem check_message_receipts_cat (fz : Fuzzer) (i : Nat) (sim : SimState) :
    ∀ r ∈ (check_message_receipts fz i sim).2.2, recCategory r = 2 := by
  unfold check_message_receipts
  exact check_message_receipts_go_cat fz _ _ _

/-- C6 counterexample: with one host and one live controller, traffic
injection certain, and controller crash certain, a round's records are the
`TrafficInjection` record followed by the `ControllerCrash` record — the
code runs `fuzz_traffic` before `check_controllers`, so the claimed
category order (controller failures before traffic injection) is violated. -/
theorem fuzzer_round_order_counterexample :
    extractRecs (trigger_events c6Fuzzer 0 c6Sim) =
        some [LogRecord.trafficInjection 7, LogRecord.controllerCrash 3] ∧
      orderedBy claimCategory
        [LogRecord.trafficInjection 7, LogRecord.controllerCrash 3] = false :=
  ⟨rfl, rfl⟩

/-- C6 amended: within one fuzzer round the decision checks run in the
fixed order dataplane → control-channel block/unblock → buffered message
receipts → switch failures/recoveries → link failures/recoveries →
synthetic traffic injection → controller failures/recoveries (the code runs
`fuzz_traffic` before `check_controllers`, traffic before controllers), the
periodic checks following after `trigger_events`: the records of every
non-raising round are sorted by that category ranking. -/
theorem fuzzer_round_order (fz : Fuzzer) (i : Nat) (sim : SimState)
    (i' : Nat) (sim' : SimState) (recs : List LogRecord)
    (h : trigger_events fz i sim = Except.ok (i', sim', recs)) :
    orderedBy recCategory recs = true := by
  unfold trigger_events at h
  rcases h1 : check_dataplane fz i sim with ⟨i1, sim1, recs1⟩
  simp only [h1] at h
  cases h2 : check_tcp_connections fz i1 sim1 with
  | error e => simp only [h2] at h; cases h
  | ok v2 =>
    rcases v2 with ⟨i2, sim2, recs2⟩
    simp only [h2] at h
    rcases h3 : check_message_receipts fz i2 sim2 with ⟨i3, sim3, recs3⟩
    simp only [h3] at h
    rcases h4 : check_switch_crashes fz i3 sim3 with ⟨i4, sim4, recs4⟩
    simp only [h4] at h
    rcases h5 : fuzz_traffic fz i4 sim4 with ⟨i5, sim5, recs5⟩
    simp only [h5] at h
    rcases h6 : check_controllers fz i5 sim5 with ⟨i6, sim6, recs6⟩
    simp only [h6] at h
    cases h
    have hc1 : ∀ r ∈ recs1, recCategory r = 0 := by
      intro r hr
      have hx := check_dataplane_cat fz i sim r
      rw [h1] at hx
      exact hx hr
    have hc2 : ∀ r ∈ recs2, recCategory r = 1 :=
      check_tcp_connections_cat fz i1 sim1 i2 sim2 recs2 h2
    have hc3 : ∀ r ∈ recs3, recCategory r = 2 := by
      intro r hr
      have hx := check_message_receipts_cat fz i2 sim2 r
      rw [h3] at hx
      exact hx hr
    have hsw := check_switch_crashes_cat fz i3 sim3
    rw [h4] at hsw
    have hc4 : ∀ r ∈ recs4, 3 ≤ recCategory r ∧ recCategory r ≤ 4 := hsw.1
    have ho4 : orderedBy recCategory recs4 = true := hsw.2
    have hc5 : ∀ r ∈ recs5, recCategory r = 5 := by
      intro r hr
      have hx := fuzz_traffic_cat fz i4 sim4 r
      rw [h5] at hx
      exact hx hr
    have hc6 : ∀ r ∈ recs6, recCategory r = 6 := by
      intro r hr
      have hx := check_controllers_cat fz i5 sim5 r
      rw [h6] at hx
      exact hx hr
    have o56 : orderedBy recCategory (recs5 ++ recs6) = true :=
      orderedBy_append recCategory recs5 recs6
        (orderedBy_of_const recCategory 5 recs5 hc5)
        (orderedBy_of_const recCategory 6 recs6 hc6)
        (fun r hr s hs => by rw [hc5 r hr, hc6 s hs]; omega)
    have o456 : orderedBy recCategory (recs4 ++ (recs5 ++ recs6)) = true :=
      orderedBy_append recCategory recs4 (recs5 ++ recs6) ho4 o56
        (fun r hr s hs => by
          rw [List.mem_append] at hs
          rcases hs with hs | hs
          · rw [hc5 s hs]; exact le_trans (hc4 r hr).2 (by omega)
          · rw [hc6 s hs]; exact le_trans (hc4 r hr).2 (by omega))
    have o3456 : orderedBy recCategory (recs3 ++ (recs4 ++ (recs5 ++ recs6))) = true :=
      orderedBy_append recCategory recs3 (recs4 ++ (recs5 ++ recs6))
        (orderedBy_of_const recCategory 2 recs3 hc3) o456
        (fun r hr s hs => by
          simp only [List.mem_append] at hs
          rcases hs with hs | hs | hs
          · rw [hc3 r hr]; exact le_trans (by omega) (hc4 s hs).1
          · rw [hc3 r hr, hc5 s hs]; omega
          · rw [hc3 r hr, hc6 s hs]; omega)
    have o23456 :
        orderedBy recCategory (recs2 ++ (recs3 ++ (recs4 ++ (recs5 ++ recs6)))) = true :=
      orderedBy_append recCategory recs2 (recs3 ++ (recs4 ++ (recs5 ++ recs6)))
        (orderedBy_of_const recCategory 1 recs2 hc2) o3456
        (fun r hr s hs => by
          simp only [List.mem_append] at hs
          rcases hs with hs | hs | hs | hs
          · rw [hc2 r hr, hc3 s hs]; omega
          · rw [hc2 r hr]; exact le_trans (by omega) (hc4 s hs).1
          · rw [hc2 r hr, hc5 s hs]; omega
          · rw [hc2 r hr, hc6 s hs]; omega)
    have o123456 :
        orderedBy recCategory
          (recs1 ++ (recs2 ++ (recs3 ++ (recs4 ++ (recs5 ++ recs6))))) = true :=
      orderedBy_append recCategory recs1 (recs2 ++ (recs3 ++ (recs4 ++ (recs5 ++ recs6))))
        (orderedBy_of_const recCategory 0 recs1 hc1) o23456
        (fun r hr s hs => by rw [hc1 r hr]; omega)
    simpa [List.append_assoc] using o123456

theorem fuzzer_round_order_witness :
    orderedBy recCategory [LogRecord.trafficInjection 7, LogRecord.controllerCrash 3] =
      true :=
  fuzzer_round_order c6Fuzzer 0 c6Sim 2
    { c6Sim with live_controllers := [], down_controllers := [3] }
    [LogRecord.trafficInjection 7, LogRecord.controllerCrash 3] rfl

theorem check_dataplane_go_drop_all (fz : Fuzzer)
    (hdelay : fz.params.dataplane_delay_rate = 0)
    (hdrop : fz.params.dataplane_drop_rate = 1)
    (hrand : ∀ j, 0 ≤ fz.rand j ∧ fz.rand j < 1) :
    ∀ (l : List DpEvent) (i : Nat) (sim : SimState),
      (check_dataplane_go fz i sim l).2.1.dropped_dp_events =
          sim.dropped_dp_events ++ l ∧
        (check_dataplane_go fz i sim l).2.1.queued_dataplane_events =
          sim.queued_dataplane_events ∧
        (check_dataplane_go fz i sim l).2.1.delayed_dp_events = sim.delayed_dp_events ∧
        (check_dataplane_go fz i sim l).2.1.permitted_dp_events =
          sim.permitted_dp_events ∧
        (check_dataplane_go fz i sim l).2.2 =
          l.map (fun e => LogRecord.dataplaneDrop e.fingerprint) := by
  intro l
  induction l with
  | nil => intro i sim; simp [check_dataplane_go]
  | cons e rest ih =>
    intro i sim
    have h1 : ¬ fz.rand i < fz.params.dataplane_delay_rate := by
      rw [hdelay]
      exact not_lt.mpr (hrand i).1
    have h2 : fz.rand (i + 1) < fz.params.dataplane_drop_rate := by
      rw [hdrop]
      exact (hrand (i + 1)).2
    rw [check_dataplane_go]
    simp only [nextRand, if_neg h1, if_pos h2]
    obtain ⟨ha, hb, hc, hd, he⟩ :=
      ih (i + 1 + 1) { sim with dropped_dp_events := sim.dropped_dp_events ++ [e] }
    refine ⟨?_, ?_, ?_, ?_, ?_⟩
    · rw [ha]
      simp
    · simpa using hb
    · simpa using hc
    · simpa using hd
    · rw [he]
      simp

/-- C7: for each queued dataplane event the fuzzer checks delay first, then
drop, then permit-if-topology-allows; hence with
`dataplane_delay_rate = 0` and `dataplane_drop_rate = 1` (and random draws
in `[0, 1)`), every queued dataplane event of a round is dropped via
`drop_dp_event` and a `DataplaneDrop` record carrying the event's
fingerprint is logged for each. -/
theorem dataplane_drop_rate_one_drops_all (fz : Fuzzer) (i : Nat) (sim : SimState)
    (hdelay : fz.params.dataplane_delay_rate = 0)
    (hdrop : fz.params.dataplane_drop_rate = 1)
    (hrand : ∀ j, 0 ≤ fz.rand j ∧ fz.rand j < 1) :
    (check_dataplane fz i sim).2.1.dropped_dp_events =
        sim.dropped_dp_events ++ sim.queued_dataplane_events ∧
      (check_dataplane fz i sim).2.1.queued_dataplane_events = [] ∧
      (check_dataplane fz i sim).2.1.delayed_dp_events = sim.delayed_dp_events ∧
      (check_dataplane fz i sim).2.1.permitted_dp_events = sim.permitted_dp_events ∧
      (check_dataplane fz i sim).2.2 =
        sim.queued_dataplane_events.map
          (fun e => LogRecord.dataplaneDrop e.fingerprint) := by
  unfold check_dataplane
  obtain ⟨ha, hb, hc, hd, he⟩ :=
    check_dataplane_go_drop_all fz hdelay hdrop hrand sim.queued_dataplane_events i
      { sim with queued_dataplane_events := [] }
  exact ⟨by simpa using ha, by simpa using hb, by simpa using hc, by simpa using hd, he⟩

theorem dataplane_drop_rate_one_drops_all_witness :
    (check_dataplane c7Fuzzer 0 c7Sim).2.1.dropped_dp_events =
        c7Sim.dropped_dp_events ++ c7Sim.queued_dataplane_events ∧
      (check_dataplane c7Fuzzer 0 c7Sim).2.1.queued_dataplane_events = [] ∧
      (check_dataplane c7Fuzzer 0 c7Sim).2.1.delayed_dp_events =
        c7Sim.delayed_dp_events ∧
      (check_dataplane c7Fuzzer 0 c7Sim).2.1.permitted_dp_events =
        c7Sim.permitted_dp_events ∧
      (check_dataplane c7Fuzzer 0 c7Sim).2.2 =
        c7Sim.queued_dataplane_events.map
          (fun e => LogRecord.dataplaneDrop e.fingerprint) :=
  dataplane_drop_rate_one_drops_all c7Fuzzer 0 c7Sim rfl rfl
    (fun j => ⟨le_refl 0, by show (0 : Rat) < 1; norm_num⟩)

end Sts
